import Mathlib

/-!
Verification of the straight-skeleton component (`src/lib/skeleton`).

This file gives a shallow embedding, in Lean 4, of the data model and the
operations of the skeleton engine: the geometric primitives (`Vector`,
angles), the mutable topology (`Vertex`, `Edge`, `Polygon`), the event
model (`EdgeEvent`, `SplitEvent`, `EventQueue`) and the two orchestration
pipelines (`Wavefront`/`Skeleton` from `Skeleton.ts`/`Wavefront.ts`, and
the variant orchestrator found in the repository as `part_007`).

Modelling conventions, used throughout:

* Numbers are real (`ℝ`).  The source works with IEEE doubles; every
  branch taken by the source on finite double values is mirrored here on
  the corresponding real values.  `Math.sqrt` is `Real.sqrt`.
* JavaScript object identity is modelled by an `id : ℕ` field on `Vertex`
  and `Edge`; `===` comparisons in the source become comparisons of these
  ids, and `new Vertex(...)` / `new Edge(...)` allocations take their ids
  from an explicitly threaded allocation counter.  Structures that hold
  object references in the source hold ids here and resolve them through
  the polygon's vertex/edge lists; this agrees with the source whenever
  the referenced object is a member of the current polygon, which the
  modelled code paths check first.
* `throw` is modelled with `Except String`; a caught exception is a
  consumed `.error`.  Where the source mutates state before throwing and
  a caller catches the error, the operation returns the partially
  mutated state explicitly (see `Polygon.initialize`).
-/

set_option maxHeartbeats 1000000
/-! ## Event queue (`EventQueue.ts`)

The queue is generic in the event type, exactly as the source class is
generic in `Event`; `tm` plays the role of the `.time` field. -/

/-- The event queue's internal `events` array. -/
abbrev EventQueue (E : Type) : Type := List E

/-- `EventQueue.add`: the source finds the first index whose event has
`e.time > event.time` (`findIndex`), inserts there (`splice`), and pushes
to the back when no such index exists (`findIndex === -1`). -/
def EventQueue.add {E τ : Type} [LinearOrder τ] (tm : E → τ) (event : E)
    (q : EventQueue E) : EventQueue E :=
  match List.findIdx? (fun e => decide (tm event < tm e)) q with
  | none => q ++ [event]
  | some i => q.insertIdx i event

/-- `EventQueue.poll`: `events.shift()` removes and returns the first
element; on an empty queue it returns `undefined` (`none`). -/
def EventQueue.poll {E : Type} (q : EventQueue E) : Option E × EventQueue E :=
  (q.head?, q.tail)

/-- `EventQueue.peek`: `events[0]`, without removal. -/
def EventQueue.peek {E : Type} (q : EventQueue E) : Option E :=
  q.head?

/-- `EventQueue.isEmpty`. -/
def EventQueue.isEmpty {E : Type} (q : EventQueue E) : Bool :=
  List.isEmpty q

/-- `EventQueue.size`. -/
def EventQueue.size {E : Type} (q : EventQueue E) : ℕ :=
  q.length

/-- Repeatedly `poll` until the queue is empty, collecting the returned
events in order. -/
def EventQueue.drain {E : Type} : EventQueue E → List E
  | [] => []
  | e :: q => e :: EventQueue.drain q

/-- A sequence of `add` calls starting from the empty queue. -/
def EventQueue.addAll {E τ : Type} [LinearOrder τ] (tm : E → τ)
    (es : List E) : EventQueue E :=
  es.foldl (fun q e => EventQueue.add tm e q) []

/-! ## Geometric primitives (`Vector.ts`, `Angle.ts`) -/

noncomputable section

/-- 2D vector (`Vector.ts`): an `(x, y)` pair of doubles. -/
structure Vec where
  x : ℝ
  y : ℝ

/-- `Vector.plus`. -/
def Vec.plus (a b : Vec) : Vec := ⟨a.x + b.x, a.y + b.y⟩

/-- `Vector.minus`. -/
def Vec.minus (a b : Vec) : Vec := ⟨a.x - b.x, a.y - b.y⟩

/-- `Vector.scale`. -/
def Vec.scale (a : Vec) (factor : ℝ) : Vec := ⟨a.x * factor, a.y * factor⟩

/-- `Vector.dot`. -/
def Vec.dot (a b : Vec) : ℝ := a.x * b.x + a.y * b.y

/-- `Vector.cross` (z-component of the 2D cross product). -/
def Vec.cross (a b : Vec) : ℝ := a.x * b.y - a.y * b.x

/-- The squared length `x*x + y*y`. -/
def Vec.lengthSq (a : Vec) : ℝ := a.x * a.x + a.y * a.y

/-- `Vector.length`: `Math.sqrt(x*x + y*y)`. -/
def Vec.length (a : Vec) : ℝ := Real.sqrt a.lengthSq

/-- `Vector.normalize`: throws "Cannot normalize zero vector" when the
length is `0`, otherwise divides both components by the length. -/
def Vec.normalize (a : Vec) : Except String Vec :=
  if a.length = 0 then .error "Cannot normalize zero vector"
  else .ok ⟨a.x / a.length, a.y / a.length⟩

/-- `Vector.clone`. -/
def Vec.clone (a : Vec) : Vec := ⟨a.x, a.y⟩

/-- `Angle.between(v1, v2).sin()`.  The source stores the radian measure
`atan2(cross, dot)` and takes its sine; for `(c, d) ≠ (0, 0)` one has
`sin (atan2 c d) = c / √(c² + d²)`, and at `(0, 0)` both the source
(`sin (atan2 0 0) = sin 0 = 0`) and this closed form (division by zero
is zero in Lean) give `0`. -/
def Angle.sinBetween (a b : Vec) : ℝ :=
  a.cross b / Real.sqrt ((a.cross b) ^ 2 + (a.dot b) ^ 2)

/-! ## Topology (`Vertex.ts`, `Edge.ts`, `Polygon.ts`) -/

/-- `Vertex`: position, mutable `prev`/`next` object references (held as
vertex ids, `none` before linking) and the mutable `bisector` field,
initialized to `(0, 0)` by the constructor. -/
structure Vertex where
  id : ℕ
  position : Vec
  prev : Option ℕ
  next : Option ℕ
  bisector : Vec

/-- `new Vertex(position)`. -/
def Vertex.make (fresh : ℕ) (position : Vec) : Vertex :=
  ⟨fresh, position, none, none, ⟨0, 0⟩⟩

/-- `Edge`: an (identity-carrying) reference pair into two vertices. -/
structure Edge where
  id : ℕ
  v1 : ℕ
  v2 : ℕ
deriving DecidableEq

/-- Resolve a vertex object reference (see the identity convention in
the file header). -/
def findVert (ctx : List Vertex) (i : ℕ) : Option Vertex :=
  ctx.find? (fun v => v.id == i)

/-- `Vertex.isReflex()`: throws when the vertex is not linked, otherwise
tests `cross(toPrev, toNext) < 0` for the vectors pointing from the
vertex to its neighbors. -/
def Vertex.isReflex (ctx : List Vertex) (v : Vertex) : Except String Bool :=
  match v.prev, v.next with
  | some pidx, some nidx =>
    match findVert ctx pidx, findVert ctx nidx with
    | some pv, some nv =>
      .ok (decide ((Vec.cross (pv.position.minus v.position)
        (nv.position.minus v.position)) < 0))
    | _, _ => .error "Vertex is not properly linked"
  | _, _ => .error "Vertex is not properly linked"

/-- `Vertex.clone()`: fresh object, cloned position and bisector,
`prev`/`next` left unset. -/
def Vertex.clone (fresh : ℕ) (v : Vertex) : Vertex × ℕ :=
  (⟨fresh, v.position.clone, none, none, v.bisector.clone⟩, fresh + 1)

/-- `Polygon`: the mutable `vertices` and `edges` arrays. -/
structure Polygon where
  vertices : List Vertex
  edges : List Edge

/-- Resolve a vertex id in the polygon. -/
def Polygon.findVertex (p : Polygon) (i : ℕ) : Option Vertex :=
  findVert p.vertices i

/-- `polygon.vertices.includes(v)` (object identity). -/
def Polygon.hasVertexId (p : Polygon) (i : ℕ) : Bool :=
  p.vertices.any (fun v => v.id == i)

/-- `polygon.edges.includes(e)` (object identity). -/
def Polygon.hasEdge (p : Polygon) (e : Edge) : Bool :=
  p.edges.any (fun e2 => e2.id == e.id)

/-- Resolve both endpoint references of an edge; the `Edge` constructor
guarantees two valid vertices, so resolution only fails on stale
references, which the modelled call sites rule out first. -/
def Edge.endpoints (p : Polygon) (e : Edge) : Except String (Vertex × Vertex) :=
  match p.findVertex e.v1, p.findVertex e.v2 with
  | some a, some b => .ok (a, b)
  | _, _ => .error "Edge must have two valid vertices"

/-- `Edge.length()`: Euclidean distance between the endpoints. -/
def Edge.length (p : Polygon) (e : Edge) : Except String ℝ := do
  let (a, b) ← Edge.endpoints p e
  .ok (Vec.length (b.position.minus a.position))

/-- `Edge.direction()`: normalized vector from `v1` to `v2`. -/
def Edge.direction (p : Polygon) (e : Edge) : Except String Vec := do
  let (a, b) ← Edge.endpoints p e
  (b.position.minus a.position).normalize

/-- `Edge.hasReflexEndpoint()`: `v1.isReflex() || v2.isReflex()`,
short-circuiting like the source. -/
def Edge.hasReflexEndpoint (p : Polygon) (e : Edge) : Except String Bool := do
  let (a, b) ← Edge.endpoints p e
  let r1 ← a.isReflex p.vertices
  if r1 then .ok true else b.isReflex p.vertices

/-- `Edge.isAdjacent(vertex)`: the vertex is an endpoint or a direct
boundary neighbor of an endpoint. -/
def Edge.isAdjacent (p : Polygon) (e : Edge) (vid : ℕ) : Except String Bool := do
  let (a, b) ← Edge.endpoints p e
  .ok (vid == a.id || vid == b.id
    || a.next == some vid || a.prev == some vid
    || b.next == some vid || b.prev == some vid)

/-- `Edge.clone()`: a new edge object with references to the same
vertices. -/
def Edge.clone (fresh : ℕ) (e : Edge) : Edge × ℕ :=
  (⟨fresh, e.v1, e.v2⟩, fresh + 1)

/-- `l.rotate 1`: element `i` of the result is `l[(i+1) % n]`. -/
def rotNext {α : Type} (l : List α) : List α := l.rotate 1

/-- `l.rotate (n-1)`: element `i` of the result is `l[(i-1+n) % n]`. -/
def rotPrev {α : Type} (l : List α) : List α := l.rotate (l.length - 1)

/-- The linking loop of `initialize()`: vertex `i` gets
`prev = vertices[(i-1+n) % n]` and `next = vertices[(i+1) % n]`. -/
def relink (vs : List Vertex) : List Vertex :=
  List.zipWith
    (fun v pn => { v with prev := some (Prod.fst pn).id, next := some (Prod.snd pn).id })
    vs ((rotPrev vs).zip (rotNext vs))

/-- The edge-building loop of `initialize()`: one fresh `Edge` object per
consecutive vertex pair `(vertices[i], vertices[(i+1) % n])`. -/
def mkEdges (fresh : ℕ) (vs : List Vertex) : List Edge :=
  List.mapIdx (fun i ab => ⟨fresh + i, (Prod.fst ab).id, (Prod.snd ab).id⟩)
    (vs.zip (rotNext vs))

/-- The per-vertex bisector computation inside `initialize()`: the two
vectors pointing away from the vertex toward its linked neighbors are
normalized, summed, and the sum normalized again. -/
def bisectorFor (ctx : List Vertex) (v : Vertex) : Except String Vec :=
  match v.prev, v.next with
  | some pidx, some nidx =>
    match findVert ctx pidx, findVert ctx nidx with
    | some pv, some nv => do
      let toPrev ← (pv.position.minus v.position).normalize
      let toNext ← (nv.position.minus v.position).normalize
      (toPrev.plus toNext).normalize
    | _, _ => .error "Vertex is not properly linked"
  | _, _ => .error "Vertex is not properly linked"

/-- The bisector loop of `initialize()`.  The source mutates the shared
vertex objects one at a time; if one computation throws, the vertices
already visited keep their new bisectors, the remaining ones keep their
old values, and the error propagates. -/
def setBisectors (ctx : List Vertex) : List Vertex → List Vertex × Option String
  | [] => ([], none)
  | v :: rest =>
    match bisectorFor ctx v with
    | .error e => (v :: rest, some e)
    | .ok b =>
      let out := setBisectors ctx rest
      ({ v with bisector := b } :: out.1, out.2)

/-- `Polygon.initialize()` (`part_005`): relink every vertex, rebuild the
edge array, then recompute every bisector.  The polygon with rebuilt
links/edges and bisectors updated up to the first failure is returned
alongside the error, if any (the source mutates in place, so a caller
that catches the error observes exactly this state). -/
def Polygon.initialize (fresh : ℕ) (p : Polygon) : (Polygon × ℕ) × Option String :=
  let linked := relink p.vertices
  let es := mkEdges fresh linked
  let out := setBisectors linked linked
  (({ vertices := out.1, edges := es }, fresh + es.length), out.2)

/-- The `Polygon` constructor: rejects fewer than 3 points, allocates one
`Vertex` per point, and runs `initialize()`; an error thrown there
aborts construction. -/
def Polygon.build (fresh : ℕ) (points : List Vec) : Except String (Polygon × ℕ) :=
  if points.length < 3 then .error "Polygon must have at least 3 points"
  else
    let vs := points.mapIdx (fun i pt => (⟨fresh + i, pt, none, none, ⟨0, 0⟩⟩ : Vertex))
    match Polygon.initialize (fresh + points.length)
        { vertices := vs, edges := [] } with
    | ((p2, f2), none) => .ok (p2, f2)
    | (_, some e) => .error e

/-- `Polygon.clone()`: fresh position vectors
(`vertices.map(v => v.position.clone())`) fed to the `Polygon`
constructor, which relinks and recomputes bisectors. -/
def Polygon.clone (fresh : ℕ) (p : Polygon) : Except String (Polygon × ℕ) :=
  Polygon.build fresh (p.vertices.map (fun v => v.position.clone))

/-- The `sign` helper of `Polygon.ts`. -/
def sign (num : ℝ) : ℤ :=
  if num < 0 then -1 else if 0 < num then 1 else 0

/-- The four-orientation intersection test of `isSimple()` for one edge
pair. -/
def segsIntersect (w1 w2 w3 w4 : Vec) : Bool :=
  let d1 := sign ((w4.x - w3.x) * (w1.y - w3.y) - (w4.y - w3.y) * (w1.x - w3.x))
  let d2 := sign ((w4.x - w3.x) * (w2.y - w3.y) - (w4.y - w3.y) * (w2.x - w3.x))
  let d3 := sign ((w2.x - w1.x) * (w3.y - w1.y) - (w2.y - w1.y) * (w3.x - w1.x))
  let d4 := sign ((w2.x - w1.x) * (w4.y - w1.y) - (w2.y - w1.y) * (w4.x - w1.x))
  decide (d1 ≠ d2) && decide (d3 ≠ d4)

/-- Endpoint positions of an edge, when resolvable. -/
def edgeSeg (p : Polygon) (e : Edge) : Option (Vec × Vec) :=
  match p.findVertex e.v1, p.findVertex e.v2 with
  | some a, some b => some (a.position, b.position)
  | _, _ => none

/-- `Polygon.isSimple()`: tests every pair `(i, j)` with `j ≥ i + 2`,
skipping the wrap pair `(0, n-1)`.  Unresolvable endpoint references
(impossible for a polygon built by `initialize()`) are treated as
non-intersecting. -/
def Polygon.isSimple (p : Polygon) : Bool :=
  let n := p.edges.length
  (List.range n).all fun i =>
    (List.range n).all fun j =>
      if j < i + 2 || (i == 0 && j == n - 1) then true
      else
        match edgeSeg p (p.edges.getD i ⟨0, 0, 0⟩),
            edgeSeg p (p.edges.getD j ⟨0, 0, 0⟩) with
        | some (a1, a2), some (b1, b2) => !(segsIntersect a1 a2 b1 b2)
        | _, _ => true

/-! ## Event model (`Event.ts`, `EdgeEvent.ts`) -/

/-- The source's `1e-10` numerical tolerance. -/
def tol : ℝ := 1 / 10 ^ 10

/-- `BISECTOR_VELOCITY` (`part_007`). -/
def bisectorVelocity : ℝ := 1

/-- The event sum type.  `EdgeEvent` holds its edge object (an `Edge` is
immutable once constructed, so the value is the full object state);
`SplitEvent` holds its vertex by object reference (id), its target edge,
and the precomputed intersection point. -/
inductive Ev where
  | edge (time : ℝ) (e : Edge)
  | split (time : ℝ) (vid : ℕ) (e : Edge) (intersection : Vec)

/-- The `time` field of the abstract `Event` base class. -/
def Ev.time : Ev → ℝ
  | .edge t _ => t
  | .split t _ _ _ => t

/-- The abstract `Event` constructor: rejects a negative time.  (It also
rejects non-finite times; reals are always finite.) -/
def Event.checkTime (time : ℝ) : Except String Unit :=
  if time < 0 then .error "Event time cannot be negative" else .ok ()

/-- `new EdgeEvent(time, edge)`: the base-class check, then the
reflex-endpoint guard. -/
def EdgeEvent.make (p : Polygon) (time : ℝ) (e : Edge) : Except String Ev := do
  Event.checkTime time
  let r ← Edge.hasReflexEndpoint p e
  if r then .error "Edge cannot have reflex vertices for edge event"
  else .ok (.edge time e)

/-- `new SplitEvent(time, vertex, edge, intersection)`: the base-class
check, the reflex-vertex guard, then the non-adjacency guard. -/
def SplitEvent.make (p : Polygon) (time : ℝ) (v : Vertex) (e : Edge)
    (intersection : Vec) : Except String Ev := do
  Event.checkTime time
  let r ← v.isReflex p.vertices
  if !r then .error "Split events can only occur at reflex vertices"
  else do
    let adj ← Edge.isAdjacent p e v.id
    if adj then .error "Split edge cannot be adjacent to splitting vertex"
    else .ok (.split time v.id e intersection)

/-! ## Wavefront engine (`Wavefront.ts`) -/

/-- `Wavefront`: the history of polygon states and their times. -/
structure Wavefront where
  polygons : List Polygon
  times : List ℝ

/-- `new Wavefront(original)`: validates simplicity and stores a deep
clone of the input as the time-0 state. -/
def Wavefront.make (fresh : ℕ) (original : Polygon) :
    Except String (Wavefront × ℕ) := do
  if !original.isSimple then
    .error "Initial polygon must be simple (no self-intersections)"
  else do
    let (c, f') ← Polygon.clone fresh original
    .ok ({ polygons := [c], times := [0] }, f')

/-- `Wavefront.getCurrentPolygon()`: the last stored state; throws when
none exists. -/
def Wavefront.getCurrentPolygon (w : Wavefront) : Except String Polygon :=
  match w.polygons.getLast? with
  | some p => .ok p
  | none => .error "No polygon states exist"

/-- In-place mutation of the current (last) polygon object. -/
def Wavefront.setCurrentPolygon (w : Wavefront) (p : Polygon) : Wavefront :=
  { w with polygons := w.polygons.dropLast ++ [p] }

/-- `Array.prototype.splice(i, k)` (removal): removes up to `k` elements
starting at index `i`. -/
def spliceRemove {α : Type} (l : List α) (i k : ℕ) : List α :=
  l.take i ++ l.drop (i + k)

/-- `Wavefront.handleEdgeEvent` (`Wavefront.ts`): finds the index of
`edge.v1` in the vertex array and of the edge in the edge array, then
runs `vertices.splice(vertexIndex, 2)`, `edges.splice(edgeIndex, 1)` and
`initialize()`.  Note that `splice(i, 2)` removes `vertices[i]` and
`vertices[i+1]`; when `i` is the last index it removes only `v1`. -/
def Wavefront.handleEdgeEvent (fresh : ℕ) (w : Wavefront) (e : Edge) :
    Except String (Wavefront × ℕ) := do
  let cur ← w.getCurrentPolygon
  match List.findIdx? (fun v => v.id == e.v1) cur.vertices,
      List.findIdx? (fun e2 => e2.id == e.id) cur.edges with
  | some vi, some ei =>
    let p2 : Polygon := { vertices := spliceRemove cur.vertices vi 2,
                          edges := spliceRemove cur.edges ei 1 }
    match Polygon.initialize fresh p2 with
    | ((p3, f'), none) => .ok (w.setCurrentPolygon p3, f')
    | (_, some err) => .error err
  | _, _ => .error "Edge event references invalid geometry"

/-- `Wavefront.handleSplitEvent` (`Wavefront.ts`): allocates the new
vertex at the intersection, inserts it right after the splitting vertex,
inserts the new edge (splitting vertex → new vertex) right after the
target edge, and reinitializes. -/
def Wavefront.handleSplitEvent (fresh : ℕ) (w : Wavefront) (vid : ℕ)
    (e : Edge) (intersection : Vec) : Except String (Wavefront × ℕ) := do
  let cur ← w.getCurrentPolygon
  let newV := Vertex.make fresh intersection
  match List.findIdx? (fun e2 => e2.id == e.id) cur.edges,
      List.findIdx? (fun v => v.id == vid) cur.vertices with
  | some ei, some vi =>
    let vs2 := cur.vertices.insertIdx (vi + 1) newV
    let newE : Edge := ⟨fresh + 1, vid, newV.id⟩
    let es2 := cur.edges.insertIdx (ei + 1) newE
    match Polygon.initialize (fresh + 2) { vertices := vs2, edges := es2 } with
    | ((p3, f'), none) => .ok (w.setCurrentPolygon p3, f')
    | (_, some err) => .error err
  | _, _ => .error "Split event references invalid geometry"

/-- `Wavefront.validateState()`: history consistency, strictly
increasing times, linked vertices (a `Vector` object is always truthy,
so the `!vertex.bisector` check is equivalent to the link checks),
edges referencing member vertices, and simplicity. -/
def Wavefront.validateState (w : Wavefront) : Except String Bool := do
  if !(w.polygons.length == w.times.length) then .ok false
  else if !(decide (List.Chain' (fun a b => a < b) w.times)) then .ok false
  else do
    let cur ← w.getCurrentPolygon
    if !(cur.vertices.all fun v => v.prev.isSome && v.next.isSome) then .ok false
    else if !(cur.edges.all fun e => cur.hasVertexId e.v1 && cur.hasVertexId e.v2)
      then .ok false
    else .ok cur.isSimple

/-- `EdgeEvent.isStillValid`: membership of the edge and of both its
endpoint objects in the current polygon, then the non-reflex
re-check. -/
def EdgeEvent.isStillValid (w : Wavefront) (e : Edge) : Except String Bool := do
  let cur ← w.getCurrentPolygon
  if !(cur.hasEdge e) then .ok false
  else if !(cur.hasVertexId e.v1 && cur.hasVertexId e.v2) then .ok false
  else do
    let r ← Edge.hasReflexEndpoint cur e
    .ok (!r)

/-- `EdgeEvent.process`: revalidate, and only on success mutate the
wavefront; an invalid event is skipped with no effect. -/
def EdgeEvent.process (fresh : ℕ) (w : Wavefront) (e : Edge) :
    Except String (Wavefront × ℕ) := do
  let valid ← EdgeEvent.isStillValid w e
  if !valid then .ok (w, fresh)
  else Wavefront.handleEdgeEvent fresh w e

/-- The two-line intersection solve shared by
`Skeleton.calculateBisectorIntersection` (`Skeleton.ts`),
`SplitEvent.calculateCurrentIntersection` and `part_007`'s
`calculateIntersection` (the source repeats the same body): intersect
the infinite line through `p1 p2` with the bisector ray's line; reject
near-parallel lines (`|denominator| < 1e-10`) and parameters outside
`[0, 1]`. -/
def lineIntersection (p1 p2 vpos bis : Vec) : Option Vec :=
  let p3 := vpos
  let p4 := vpos.plus bis
  let den := (p1.x - p2.x) * (p3.y - p4.y) - (p1.y - p2.y) * (p3.x - p4.x)
  if |den| < tol then none
  else
    let t := ((p1.x - p3.x) * (p3.y - p4.y) - (p1.y - p3.y) * (p3.x - p4.x)) / den
    if t < 0 ∨ 1 < t then none
    else some ⟨p1.x + t * (p2.x - p1.x), p1.y + t * (p2.y - p1.y)⟩

/-- `SplitEvent.isStillValid`: membership of vertex and edge, the reflex
re-check, the non-adjacency re-check, the intersection recompute against
current geometry, and the `1e-10` stability requirement on the
recomputed intersection point. -/
def SplitEvent.isStillValid (w : Wavefront) (vid : ℕ) (e : Edge)
    (intersection : Vec) : Except String Bool := do
  let cur ← w.getCurrentPolygon
  if !(cur.hasVertexId vid && cur.hasEdge e) then .ok false
  else
    match cur.findVertex vid with
    | none => .error "Vertex not found"
    | some v => do
      let r ← v.isReflex cur.vertices
      if !r then .ok false
      else do
        let adj ← Edge.isAdjacent cur e vid
        if adj then .ok false
        else do
          let (a, b) ← Edge.endpoints cur e
          match lineIntersection a.position b.position v.position v.bisector with
          | none => .ok false
          | some newInter =>
            .ok (decide (Vec.length (intersection.minus newInter) < tol))

/-- `SplitEvent.process`: revalidate, and only on success mutate the
wavefront; an invalid event is skipped with no effect. -/
def SplitEvent.process (fresh : ℕ) (w : Wavefront) (vid : ℕ) (e : Edge)
    (intersection : Vec) : Except String (Wavefront × ℕ) := do
  let valid ← SplitEvent.isStillValid w vid e intersection
  if !valid then .ok (w, fresh)
  else Wavefront.handleSplitEvent fresh w vid e intersection

/-- Dispatch of `event.process(wavefront)` over the two concrete event
classes. -/
def Ev.process (fresh : ℕ) (w : Wavefront) : Ev → Except String (Wavefront × ℕ)
  | .edge _ e => EdgeEvent.process fresh w e
  | .split _ vid e inter => SplitEvent.process fresh w vid e inter

/-! ## `Skeleton.ts` orchestrator -/

/-- The `Skeleton` (from `Skeleton.ts`) state: the wavefront, the event
queue, the `readonly edges` array (which this variant never appends to),
and the allocation counter. -/
structure SkeletonSt where
  wavefront : Wavefront
  queue : EventQueue Ev
  edges : List Edge
  fresh : ℕ

/-- `Skeleton.calculateEdgeCollapseTime` (`Skeleton.ts`):
`length / (1/sin θ1 + 1/sin θ2)` with θ computed by `Angle.between`
against the stored endpoint bisectors.  This variant has no tolerance
guard.  (IEEE note: in JS an exactly zero sine gives `1/0 = Infinity`
and a collapse time of `0`, which the `time > 0` filter below discards;
in Lean `1/0 = 0`, so an exactly-zero sine instead drops one summand.
No theorem in this file evaluates this function on a zero sine.) -/
def Skeleton.calculateEdgeCollapseTime (p : Polygon) (e : Edge) :
    Except String ℝ := do
  let edgeDir ← Edge.direction p e
  let (a, b) ← Edge.endpoints p e
  let sin1 := Angle.sinBetween edgeDir a.bisector
  let sin2 := Angle.sinBetween edgeDir b.bisector
  let len ← Edge.length p e
  .ok (len / (1 / sin1 + 1 / sin2))

/-- `Skeleton.calculateSplitTime`: the Euclidean distance from the
vertex to the intersection. -/
def Skeleton.calculateSplitTime (vpos intersection : Vec) : ℝ :=
  Vec.length (vpos.minus intersection)

/-- `Skeleton.findSplitEvents` (`Skeleton.ts`): for each edge not
adjacent to the reflex vertex, intersect the stored bisector ray with
the edge line and enqueue a `SplitEvent` for a positive finite time. -/
def Skeleton.findSplitEvents (p : Polygon) (v : Vertex) (q0 : EventQueue Ev) :
    Except String (EventQueue Ev) :=
  p.edges.foldlM (fun q e => do
      let adj ← Edge.isAdjacent p e v.id
      if adj then .ok q
      else do
        let ab ← Edge.endpoints p e
        match lineIntersection ab.1.position ab.2.position v.position
            v.bisector with
        | none => .ok q
        | some inter =>
          let t := Skeleton.calculateSplitTime v.position inter
          if 0 < t then do
            let ev ← SplitEvent.make p t v e inter
            .ok (EventQueue.add Ev.time ev q)
          else .ok q) q0

/-- `Skeleton.initializeEvents` (`Skeleton.ts`): scan all edges for edge
events (skipping reflex-terminated edges and non-positive or non-finite
times), then all reflex vertices for split events.  No try/catch: any
throw propagates. -/
def Skeleton.initializeEvents (p : Polygon) (q0 : EventQueue Ev) :
    Except String (EventQueue Ev) := do
  let q1 ← p.edges.foldlM (fun q e => do
      let r ← Edge.hasReflexEndpoint p e
      if r then .ok q
      else do
        let t ← Skeleton.calculateEdgeCollapseTime p e
        if 0 < t then do
          let ev ← EdgeEvent.make p t e
          .ok (EventQueue.add Ev.time ev q)
        else .ok q) q0
  p.vertices.foldlM (fun q v => do
      let r ← v.isReflex p.vertices
      if r then Skeleton.findSplitEvents p v q else .ok q) q1

/-- The `Skeleton` constructor (`Skeleton.ts`): validate simplicity,
build the wavefront (which clones), and compute the initial events from
the wavefront's current polygon (the clone). -/
def Skeleton.make (fresh : ℕ) (polygon : Polygon) : Except String SkeletonSt := do
  if !polygon.isSimple then
    .error "Initial polygon must be simple (no self-intersections)"
  else do
    let wf ← Wavefront.make fresh polygon
    let cur ← wf.1.getCurrentPolygon
    let q ← Skeleton.initializeEvents cur []
    .ok { wavefront := wf.1, queue := q, edges := [], fresh := wf.2 }

/-- `Skeleton.updateEvents` (`Skeleton.ts`): a brand-new queue,
recomputed from scratch against the current polygon. -/
def Skeleton.updateEvents (s : SkeletonSt) : Except String SkeletonSt := do
  let cur ← s.wavefront.getCurrentPolygon
  let q ← Skeleton.initializeEvents cur []
  .ok { s with queue := q }

/-- `Skeleton.compute()` (`Skeleton.ts`): poll, `process`, check
`validateState` (throwing on failure), rebuild the whole queue, repeat
while the queue is non-empty.  There is no per-event catch: any error
propagates out of `compute` at once.  The source loop has no a-priori
termination bound, so the model takes fuel; `fuel = 0` returns the
state reached so far. -/
def Skeleton.compute : ℕ → SkeletonSt → Except String SkeletonSt
  | 0, s => .ok s
  | fuel + 1, s =>
    match EventQueue.poll s.queue with
    | (none, _) => .ok s
    | (some ev, q') => do
      let wf2 ← Ev.process s.fresh s.wavefront ev
      let valid ← Wavefront.validateState wf2.1
      if !valid then .error "Invalid wavefront state after event processing"
      else do
        let s3 ← Skeleton.updateEvents
          { s with wavefront := wf2.1, queue := q', fresh := wf2.2 }
        Skeleton.compute fuel s3

/-- `Skeleton.getEdges()` (`Skeleton.ts`): returns `this.edges` itself —
the live array, not a copy.  The pair records that the state is
untouched by the read. -/
def Skeleton.getEdges (s : SkeletonSt) : List Edge × SkeletonSt :=
  (s.edges, s)

/-! ## `part_007` orchestrator -/

/-- The `part_007` `Skeleton` state. -/
structure P7St where
  queue : EventQueue Ev
  wavefrontPolygons : List Polygon
  angleBisectorEdges : List Edge
  skeletonEdges : List Edge
  debugLog : List String
  fresh : ℕ

/-- `Skeleton.calculateBisector` (`part_007`): recomputes a bisector
from the vertex's links.  (Note the source's `prevVector` points from
the previous neighbor toward the vertex, unlike `initialize()`.) -/
def P7.calculateBisector (p : Polygon) (v : Vertex) : Except String Vec :=
  match v.prev, v.next with
  | some pidx, some nidx =>
    match findVert p.vertices pidx, findVert p.vertices nidx with
    | some pv, some nv => do
      let prevVector := v.position.minus pv.position
      let nextVector := nv.position.minus v.position
      let normalizedPrev ← prevVector.normalize
      let normalizedNext ← nextVector.normalize
      (normalizedPrev.plus normalizedNext).normalize
    | _, _ => .error "Vertex missing prev/next references"
  | _, _ => .error "Vertex missing prev/next references"

/-- `Skeleton.computeInitialBisectors` (`part_007`): per vertex, compute
a bisector, validate it is unit length (within `1e-10`), and store a
fixed-length (10) debug ray edge built from two freshly allocated
vertices. -/
def P7.computeInitialBisectors (p : Polygon) (fresh : ℕ) :
    Except String (List Edge × ℕ) :=
  p.vertices.foldlM (fun (acc : List Edge × ℕ) v => do
      let bis ← P7.calculateBisector p v
      if tol < |Vec.length bis - 1| then .error "Invalid bisector length"
      else
        let bisectorEnd := v.position.plus (bis.scale 10)
        let va : Vertex := Vertex.make acc.2 v.position
        let vb : Vertex := Vertex.make (acc.2 + 1) bisectorEnd
        .ok (acc.1 ++ [⟨acc.2 + 2, va.id, vb.id⟩], acc.2 + 3)) ([], fresh)

/-- `Skeleton.calculateEdgeCollapseTime` (`part_007`): as the
`Skeleton.ts` version, but throws "Angle sine too close to zero" when
either sine's magnitude is below the `1e-10` tolerance. -/
def P7.calculateEdgeCollapseTime (p : Polygon) (e : Edge) :
    Except String ℝ := do
  let edgeVector ← Edge.direction p e
  let (a, b) ← Edge.endpoints p e
  let sin1 := Angle.sinBetween edgeVector a.bisector
  let sin2 := Angle.sinBetween edgeVector b.bisector
  if |sin1| < tol ∨ |sin2| < tol then .error "Angle sine too close to zero"
  else do
    let len ← Edge.length p e
    .ok (len / (1 / sin1 + 1 / sin2))

/-- `Skeleton.computeInitialEdgeEvents` (`part_007`): skips
reflex-terminated edges and non-positive or non-finite times, otherwise
enqueues an `EdgeEvent`.  Its per-edge `catch` block logs and then
RE-THROWS a wrapped error, so the first failing edge aborts the whole
scan (and, through `initialize`, the whole construction). -/
def P7.computeInitialEdgeEvents (p : Polygon) (q0 : EventQueue Ev) :
    Except String (EventQueue Ev) :=
  p.edges.foldlM (fun q e => do
      let r ← Edge.hasReflexEndpoint p e
      if r then .ok q
      else do
        let t ← P7.calculateEdgeCollapseTime p e
        if t ≤ 0 then .ok q
        else do
          let ev ← EdgeEvent.make p t e
          .ok (EventQueue.add Ev.time ev q)) q0

/-- `Skeleton.computeInitialSplitEvents` (`part_007`): for each reflex
vertex, recompute its bisector, and for each non-adjacent edge try to
build a `SplitEvent`; the per-edge try/catch logs a warning and
CONTINUES on failure (unlike the edge-event scan). -/
def P7.computeInitialSplitEvents (p : Polygon) (q0 : EventQueue Ev) :
    Except String (EventQueue Ev) :=
  p.vertices.foldlM (fun q v => do
      let r ← v.isReflex p.vertices
      if !r then .ok q
      else do
        let bis ← P7.calculateBisector p v
        p.edges.foldlM (fun q2 e => do
            let adj ← Edge.isAdjacent p e v.id
            if adj then .ok q2
            else
              match (do
                  let ab ← Edge.endpoints p e
                  match lineIntersection ab.1.position ab.2.position
                      v.position bis with
                  | none => .ok q2
                  | some inter =>
                    let t := Skeleton.calculateSplitTime v.position inter
                      / bisectorVelocity
                    if t ≤ 0 then .ok q2
                    else do
                      let ev ← SplitEvent.make p t v e inter
                      .ok (EventQueue.add Ev.time ev q2)
                  : Except String (EventQueue Ev)) with
              | .ok q3 => .ok q3
              | .error _ => .ok q2) q) q0

/-- The `part_007` `Skeleton` constructor: `validateInputPolygon`, push
`polygon.clone()` as the first wavefront snapshot, then compute the
initial bisectors, edge events and split events — all three scans run
against the ORIGINAL input polygon, not the clone.  (Log messages are
not modelled; the debug log starts empty.) -/
def P7.build (fresh : ℕ) (polygon : Polygon) : Except String P7St := do
  if polygon.vertices.length < 3 then
    .error "Invalid polygon: fewer than 3 vertices"
  else if !polygon.isSimple then
    .error "Invalid polygon: contains self-intersections"
  else if !(polygon.vertices.all fun v => v.prev.isSome && v.next.isSome) then
    .error "Invalid polygon: vertices not properly linked"
  else do
    let c ← Polygon.clone fresh polygon
    let be ← P7.computeInitialBisectors polygon c.2
    let q1 ← P7.computeInitialEdgeEvents polygon []
    let q2 ← P7.computeInitialSplitEvents polygon q1
    .ok { queue := q2, wavefrontPolygons := [c.1],
          angleBisectorEdges := be.1, skeletonEdges := [],
          debugLog := [], fresh := be.2 }

/-- `Skeleton.validateEventState` (`part_007`): re-checks ONLY
membership — of the edge for an `EdgeEvent`, of the vertex and the edge
for a `SplitEvent` — in the current polygon. -/
def P7.validateEventState (cur : Polygon) : Ev → Bool
  | .edge _ e => cur.hasEdge e
  | .split _ vid e _ => cur.hasVertexId vid && cur.hasEdge e

/-- `Skeleton.handleEdgeEvent` (`part_007`): validate (membership only),
record a shallow clone of the collapsed edge as a skeleton edge, remove
BOTH endpoint vertices (`filter`) and the edge, and reinitialize.  A
`throw` from `initialize()` leaves the earlier mutations in place; the
second component carries the error that propagates to the caller's
catch. -/
def P7.handleEdgeEvent (s : P7St) (t : ℝ) (e : Edge) : P7St × Option String :=
  match s.wavefrontPolygons.getLast? with
  | none => (s, none)
  | some cur =>
    if !(P7.validateEventState cur (.edge t e)) then (s, none)
    else
      let se := Edge.clone s.fresh e
      let s1 := { s with skeletonEdges := s.skeletonEdges ++ [se.1],
                         fresh := se.2 }
      let p2 : Polygon :=
        { vertices := cur.vertices.filter
            (fun v => !(v.id == e.v1) && !(v.id == e.v2)),
          edges := cur.edges.filter (fun e2 => !(e2.id == e.id)) }
      match Polygon.initialize s1.fresh p2 with
      | ((p3, f2), err) =>
        ({ s1 with
            wavefrontPolygons := s1.wavefrontPolygons.dropLast ++ [p3],
            fresh := f2 }, err)

/-- `Skeleton.handleSplitEvent` (`part_007`): validate (membership
only), record a skeleton edge built from two freshly allocated vertices
at the splitting vertex's position and the recorded intersection,
insert a new vertex after the splitting vertex and a new edge after the
target edge, and reinitialize.  Mutations made before a `throw`
persist. -/
def P7.handleSplitEvent (s : P7St) (t : ℝ) (vid : ℕ) (e : Edge)
    (inter : Vec) : P7St × Option String :=
  match s.wavefrontPolygons.getLast? with
  | none => (s, none)
  | some cur =>
    if !(P7.validateEventState cur (.split t vid e inter)) then (s, none)
    else
      match cur.findVertex vid with
      | none => (s, none)
      | some v =>
        let va := Vertex.make s.fresh v.position
        let vb := Vertex.make (s.fresh + 1) inter
        let se : Edge := ⟨s.fresh + 2, va.id, vb.id⟩
        let s1 := { s with skeletonEdges := s.skeletonEdges ++ [se],
                           fresh := s.fresh + 3 }
        match List.findIdx? (fun e2 => e2.id == e.id) cur.edges,
            List.findIdx? (fun v2 => v2.id == vid) cur.vertices with
        | some ei, some vi =>
          let newV := Vertex.make s1.fresh inter
          let vs2 := cur.vertices.insertIdx (vi + 1) newV
          let ne : Edge := ⟨s1.fresh + 1, vid, newV.id⟩
          let es2 := cur.edges.insertIdx (ei + 1) ne
          match Polygon.initialize (s1.fresh + 2)
              { vertices := vs2, edges := es2 } with
          | ((p3, f2), err) =>
            ({ s1 with
                wavefrontPolygons := s1.wavefrontPolygons.dropLast ++ [p3],
                fresh := f2 }, err)
        | _, _ =>
          (s1, some "Invalid split event: edge or vertex not found in current polygon")

/-- One iteration body of `Skeleton.processEvents` (`part_007`): the
`instanceof` dispatch to a handler, then the snapshot push
(`wavefrontPolygons.push(currentPolygon.clone())`); the try/catch around
both means an error (the handler's second component, or a throwing
clone) is logged and the state reached so far is kept. -/
def P7.processStep (s : P7St) (ev : Ev) : P7St :=
  let hr :=
    match ev with
    | .edge t e => P7.handleEdgeEvent s t e
    | .split t vid e inter => P7.handleSplitEvent s t vid e inter
  match hr.2 with
  | some _ => hr.1
  | none =>
    match hr.1.wavefrontPolygons.getLast? with
    | none => hr.1
    | some cur =>
      match Polygon.clone hr.1.fresh cur with
      | .ok cf =>
        { hr.1 with
            wavefrontPolygons := hr.1.wavefrontPolygons ++ [cf.1],
            fresh := cf.2 }
      | .error _ => hr.1

/-- The polling loop of `Skeleton.processEvents` (`part_007`). -/
def P7.processEventsAux : List Ev → P7St → P7St
  | [], s => s
  | ev :: rest, s => P7.processEventsAux rest (P7.processStep { s with queue := rest } ev)

/-- `Skeleton.processEvents` (`part_007`): poll until the queue is
empty; every per-event failure is caught, logged and skipped. -/
def P7.processEvents (s : P7St) : P7St :=
  P7.processEventsAux s.queue s

/-- `getWavefrontPolygons()` (`part_007`): `map(p => p.clone())`; a
`throw` inside a clone propagates to the caller.  The allocation
counter for the copies is external to the engine state, which the
getter does not touch. -/
def P7.getWavefrontPolygons (fresh : ℕ) (s : P7St) :
    Except String (List Polygon × ℕ) :=
  s.wavefrontPolygons.foldlM (fun (acc : List Polygon × ℕ) p => do
      let c ← Polygon.clone acc.2 p
      .ok (acc.1 ++ [c.1], c.2)) ([], fresh)

/-- `getAngleBisectors()` (`part_007`): `map(e => e.clone())` — fresh
`Edge` objects whose endpoint references are the engine's own vertex
objects. -/
def P7.getAngleBisectors (fresh : ℕ) (s : P7St) : List Edge × ℕ :=
  s.angleBisectorEdges.foldl
    (fun (acc : List Edge × ℕ) e =>
      let c := Edge.clone acc.2 e
      (acc.1 ++ [c.1], c.2)) ([], fresh)

/-- `getSkeletonEdges()` (`part_007`): `map(e => e.clone())` — fresh
`Edge` objects whose endpoint references are the engine's own vertex
objects. -/
def P7.getSkeletonEdges (fresh : ℕ) (s : P7St) : List Edge × ℕ :=
  s.skeletonEdges.foldl
    (fun (acc : List Edge × ℕ) e =>
      let c := Edge.clone acc.2 e
      (acc.1 ++ [c.1], c.2)) ([], fresh)

/-- `getDebugLog()` (`part_007`): a spread copy of the log array. -/
def P7.getDebugLog (s : P7St) : List String :=
  s.debugLog

/-! ## Concrete fixtures

States used by witnesses and counterexamples.  Links are exactly what
`initialize()` establishes for the listed vertex order; the runs below
never read the stored bisector values (`initialize` recomputes them from
positions), so those are left at the constructor default `(0, 0)`. -/

/-- A clockwise 4x3 rectangle `(0,0), (0,3), (4,3), (4,0)`; under the
source's `cross(toPrev, toNext) < 0` test every corner is NON-reflex. -/
def sqCW : Polygon :=
  { vertices :=
      [ ⟨0, ⟨0, 0⟩, some 3, some 1, ⟨0, 0⟩⟩,
        ⟨1, ⟨0, 3⟩, some 0, some 2, ⟨0, 0⟩⟩,
        ⟨2, ⟨4, 3⟩, some 1, some 3, ⟨0, 0⟩⟩,
        ⟨3, ⟨4, 0⟩, some 2, some 0, ⟨0, 0⟩⟩ ],
    edges := [⟨10, 0, 1⟩, ⟨11, 1, 2⟩, ⟨12, 2, 3⟩, ⟨13, 3, 0⟩] }

/-- A counterclockwise 4x3 rectangle `(0,0), (4,0), (4,3), (0,3)`; under
the source's test every corner IS reflex. -/
def sqCCW : Polygon :=
  { vertices :=
      [ ⟨0, ⟨0, 0⟩, some 3, some 1, ⟨0, 0⟩⟩,
        ⟨1, ⟨4, 0⟩, some 0, some 2, ⟨0, 0⟩⟩,
        ⟨2, ⟨4, 3⟩, some 1, some 3, ⟨0, 0⟩⟩,
        ⟨3, ⟨0, 3⟩, some 2, some 0, ⟨0, 0⟩⟩ ],
    edges := [⟨10, 0, 1⟩, ⟨11, 1, 2⟩, ⟨12, 2, 3⟩, ⟨13, 3, 0⟩] }

/-- A clockwise right triangle `(0,0), (0,3), (4,0)` (all corners
non-reflex). -/
def triCW : Polygon :=
  { vertices :=
      [ ⟨0, ⟨0, 0⟩, some 2, some 1, ⟨0, 0⟩⟩,
        ⟨1, ⟨0, 3⟩, some 0, some 2, ⟨0, 0⟩⟩,
        ⟨2, ⟨4, 0⟩, some 1, some 0, ⟨0, 0⟩⟩ ],
    edges := [⟨10, 0, 1⟩, ⟨11, 1, 2⟩, ⟨12, 2, 0⟩] }

/-- The clockwise rectangle with vertex 0's stored bisector set parallel
to its outgoing edge `(0,0) → (0,3)`: the collapse-time formula for edge
`⟨10, 0, 1⟩` then has `sin θ1 = 0`, below the `1e-10` tolerance.  (Such
sub-tolerance sines arise from near-degenerate spikes; an exactly
parallel stored bisector gives the branch an exact witness.) -/
def degSq : Polygon :=
  { vertices :=
      [ ⟨0, ⟨0, 0⟩, some 3, some 1, ⟨0, 1⟩⟩,
        ⟨1, ⟨0, 3⟩, some 0, some 2, ⟨1, 0⟩⟩,
        ⟨2, ⟨4, 3⟩, some 1, some 3, ⟨1, 0⟩⟩,
        ⟨3, ⟨4, 0⟩, some 2, some 0, ⟨1, 0⟩⟩ ],
    edges := [⟨10, 0, 1⟩, ⟨11, 1, 2⟩, ⟨12, 2, 3⟩, ⟨13, 3, 0⟩] }

/-- The object identity and (immutable) position of a vertex — the data
`initialize()` must not change. -/
def vkey (v : Vertex) : ℕ × Vec := (v.id, v.position)

/-! ## C8: bisectors after `initialize()` -/

/-- The spec's bisector formula (design section 4.2), stated separately
from the implementation for the refinement comparison in C8:
`normalize(normalize(toPrev) + normalize(toNext))` with
`toPrev`/`toNext` pointing away from the vertex toward its neighbors. -/
def specBisector (pos prevPos nextPos : Vec) : Except String Vec := do
  let toPrev ← (prevPos.minus pos).normalize
  let toNext ← (nextPos.minus pos).normalize
  (toPrev.plus toNext).normalize

/-- The polygon left behind by splicing the wrap-around edge out of the
clockwise rectangle: the triangle `(0,0), (0,3), (4,3)` with the stale
links the splice leaves (vertex 0 still points at removed vertex 3). -/
def sqCWspliced : Polygon :=
  { vertices :=
      [ ⟨0, ⟨0, 0⟩, some 3, some 1, ⟨0, 0⟩⟩,
        ⟨1, ⟨0, 3⟩, some 0, some 2, ⟨0, 0⟩⟩,
        ⟨2, ⟨4, 3⟩, some 1, some 3, ⟨0, 0⟩⟩ ],
    edges := [⟨10, 0, 1⟩, ⟨11, 1, 2⟩, ⟨12, 2, 3⟩] }

/-- What the splice leaves of the clockwise triangle after collapsing
edge `⟨10, 0, 1⟩`: a single vertex. -/
def triRem : Polygon :=
  { vertices := [⟨2, ⟨4, 0⟩, some 1, some 0, ⟨0, 0⟩⟩],
    edges := [⟨11, 1, 2⟩, ⟨12, 2, 0⟩] }

/-- The polygon `part_007`'s `handleSplitEvent` builds from `sqCW` for a
split event at vertex 0, target edge `⟨11, 1, 2⟩`, intersection
`(4, 0)`, with the engine's allocation counter at 50. -/
def sqCWsplit : Polygon :=
  { vertices :=
      [ ⟨0, ⟨0, 0⟩, some 3, some 1, ⟨0, 0⟩⟩,
        ⟨53, ⟨4, 0⟩, none, none, ⟨0, 0⟩⟩,
        ⟨1, ⟨0, 3⟩, some 0, some 2, ⟨0, 0⟩⟩,
        ⟨2, ⟨4, 3⟩, some 1, some 3, ⟨0, 0⟩⟩,
        ⟨3, ⟨4, 0⟩, some 2, some 0, ⟨0, 0⟩⟩ ],
    edges := [⟨10, 0, 1⟩, ⟨11, 1, 2⟩, ⟨54, 0, 53⟩, ⟨12, 2, 3⟩, ⟨13, 3, 0⟩] }

/-! ## Object-identity bookkeeping

`Polygon.IdsGe n p` says every object id in `p` is at least `n`: `p`
was built entirely from allocations at or after counter value `n`, so
it shares no object with anything allocated before `n`. -/

def Polygon.IdsGe (n : ℕ) (p : Polygon) : Prop :=
  (∀ v ∈ p.vertices, n ≤ v.id)
  ∧ (∀ e ∈ p.edges, n ≤ e.id ∧ n ≤ e.v1 ∧ n ≤ e.v2)

/-- A triangle `(0,0), (14,0), (7,24)` (sides 14, 25, 25) whose corner
bisectors all evaluate rationally: every `normalize()` in
`initialize()` divides by a rational length. -/
def goldT : Polygon :=
  { vertices :=
      [⟨0, ⟨0, 0⟩, some 2, some 1, ⟨0, 0⟩⟩,
       ⟨1, ⟨14, 0⟩, some 0, some 2, ⟨0, 0⟩⟩,
       ⟨2, ⟨7, 24⟩, some 1, some 0, ⟨0, 0⟩⟩],
    edges := [] }

/-- What `goldT.clone(50)` builds: fresh vertices 50-52, fresh edges
53-55, and the exact rational bisectors. -/
def goldTC : Polygon :=
  { vertices :=
      [⟨50, ⟨0, 0⟩, some 52, some 51, ⟨4 / 5, 3 / 5⟩⟩,
       ⟨51, ⟨14, 0⟩, some 50, some 52, ⟨-(4 / 5), 3 / 5⟩⟩,
       ⟨52, ⟨7, 24⟩, some 51, some 50, ⟨0, -1⟩⟩],
    edges := [⟨53, 50, 51⟩, ⟨54, 51, 52⟩, ⟨55, 52, 50⟩] }

/-- `add` inserts in front of the first strictly later event: it splits
the queue at the first element with a strictly greater time. -/
theorem EventQueue.add_eq {E τ : Type} [LinearOrder τ] (tm : E → τ)
    (event : E) (q : EventQueue E) :
    EventQueue.add tm event q
      = q.takeWhile (fun e => !decide (tm event < tm e))
        ++ event :: q.dropWhile (fun e => !decide (tm event < tm e)) := by
  induction q with
  | nil => simp [EventQueue.add]
  | cons x q ih =>
    by_cases h : tm event < tm x
    · simp [EventQueue.add, List.findIdx?_cons, h, List.insertIdx_zero]
    · simp only [EventQueue.add, List.findIdx?_cons, decide_eq_true_eq, h,
        if_false, List.findIdx?_succ, List.takeWhile_cons,
        List.dropWhile_cons, decide_eq_false h, Bool.not_false, if_true]
      simp only [EventQueue.add] at ih
      cases hfi : List.findIdx? (fun e => decide (tm event < tm e)) q with
      | none =>
        simp only [hfi] at ih
        simp [hfi, ← ih]
      | some i =>
        simp only [hfi] at ih
        simp [hfi, List.insertIdx_succ_cons, ← ih]

/-- `add` preserves sortedness by time. -/
theorem EventQueue.add_sorted {E τ : Type} [LinearOrder τ] (tm : E → τ)
    (event : E) (q : EventQueue E)
    (hq : List.Pairwise (fun a b => tm a ≤ tm b) q) :
    List.Pairwise (fun a b => tm a ≤ tm b) (EventQueue.add tm event q) := by
  rw [EventQueue.add_eq]
  have htake : List.Pairwise (fun a b => tm a ≤ tm b)
      (q.takeWhile (fun e => !decide (tm event < tm e))) :=
    List.Pairwise.sublist (List.takeWhile_sublist _) hq
  have hdrop : List.Pairwise (fun a b => tm a ≤ tm b)
      (q.dropWhile (fun e => !decide (tm event < tm e))) :=
    List.Pairwise.sublist (List.dropWhile_sublist _) hq
  have hmemtake : ∀ a ∈ q.takeWhile (fun e => !decide (tm event < tm e)),
      tm a ≤ tm event := by
    intro a ha
    have := List.mem_takeWhile_imp ha
    exact le_of_not_lt (by simpa using this)
  have hmemdrop : ∀ b ∈ q.dropWhile (fun e => !decide (tm event < tm e)),
      tm event ≤ tm b := by
    intro b hb
    cases hd : q.dropWhile (fun e => !decide (tm event < tm e)) with
    | nil => simp [hd] at hb
    | cons b0 rest =>
      have hb0 : tm event < tm b0 := by
        have := List.head?_dropWhile_not (fun e => !decide (tm event < tm e)) q
        rw [hd] at this
        simpa using this
      rw [hd] at hb
      rcases List.mem_cons.mp hb with rfl | hbrest
      · exact le_of_lt hb0
      · have hsort := hdrop
        rw [hd] at hsort
        exact le_trans (le_of_lt hb0)
          ((List.pairwise_cons.mp hsort).1 b hbrest)
  rw [List.pairwise_append]
  refine ⟨htake, ?_, ?_⟩
  · rw [List.pairwise_cons]
    exact ⟨fun b hb => hmemdrop b hb, hdrop⟩
  · intro a ha b hb
    rcases List.mem_cons.mp hb with rfl | hb'
    · exact hmemtake a ha
    · exact le_trans (hmemtake a ha) (hmemdrop b hb')

/-- Inserting into a sorted queue keeps events of any fixed time `t` in
insertion order: the new event lands after all existing events of its
time, and events of other times are untouched. -/
theorem EventQueue.add_filter {E τ : Type} [LinearOrder τ] (tm : E → τ)
    (event : E) (q : EventQueue E)
    (hq : List.Pairwise (fun a b => tm a ≤ tm b) q) (t : τ) :
    (EventQueue.add tm event q).filter (fun e => decide (tm e = t))
      = q.filter (fun e => decide (tm e = t))
        ++ if tm event = t then [event] else [] := by
  rw [EventQueue.add_eq]
  have hdropfilter : tm event = t →
      (q.dropWhile (fun e => !decide (tm event < tm e))).filter
        (fun e => decide (tm e = t)) = [] := by
    intro het
    rw [List.filter_eq_nil_iff]
    intro b hb
    cases hd : q.dropWhile (fun e => !decide (tm event < tm e)) with
    | nil => simp [hd] at hb
    | cons b0 rest =>
      have hb0 : tm event < tm b0 := by
        have := List.head?_dropWhile_not (fun e => !decide (tm event < tm e)) q
        rw [hd] at this
        simpa using this
      have hdrop : List.Pairwise (fun a b => tm a ≤ tm b)
          (q.dropWhile (fun e => !decide (tm event < tm e))) :=
        List.Pairwise.sublist (List.dropWhile_sublist _) hq
      rw [hd] at hb hdrop
      have hbt : tm event < tm b := by
        rcases List.mem_cons.mp hb with rfl | hbrest
        · exact hb0
        · exact lt_of_lt_of_le hb0 ((List.pairwise_cons.mp hdrop).1 b hbrest)
      simp only [decide_eq_true_eq]
      intro hcontra
      rw [← het] at hcontra
      exact absurd hcontra (ne_of_gt hbt)
  by_cases het : tm event = t
  · rw [List.filter_append, List.filter_cons, hdropfilter het]
    conv_rhs => rw [← List.takeWhile_append_dropWhile
      (fun e => !decide (tm event < tm e)) q]
    rw [List.filter_append, hdropfilter het]
    simp [het]
  · rw [List.filter_append, List.filter_cons]
    conv_rhs => rw [← List.takeWhile_append_dropWhile
      (fun e => !decide (tm event < tm e)) q]
    rw [List.filter_append]
    simp [het]

/-- After any sequence of `add` calls the queue is sorted by time and,
for each time `t`, holds exactly the added events of time `t` in
insertion order. -/
theorem EventQueue.addAll_sorted_stable {E τ : Type} [LinearOrder τ]
    (tm : E → τ) (es : List E) :
    List.Pairwise (fun a b => tm a ≤ tm b) (EventQueue.addAll tm es)
      ∧ ∀ t, (EventQueue.addAll tm es).filter (fun e => decide (tm e = t))
          = es.filter (fun e => decide (tm e = t)) := by
  suffices h : ∀ (q : EventQueue E),
      List.Pairwise (fun a b => tm a ≤ tm b) q →
      List.Pairwise (fun a b => tm a ≤ tm b)
        (es.foldl (fun q e => EventQueue.add tm e q) q)
      ∧ ∀ t, (es.foldl (fun q e => EventQueue.add tm e q) q).filter
            (fun e => decide (tm e = t))
          = q.filter (fun e => decide (tm e = t))
            ++ es.filter (fun e => decide (tm e = t)) by
    have := h [] (by simp)
    simpa [EventQueue.addAll] using this
  induction es with
  | nil =>
    intro q hq
    exact ⟨hq, fun t => by simp⟩
  | cons e es ih =>
    intro q hq
    have hq' := EventQueue.add_sorted tm e q hq
    obtain ⟨h1, h2⟩ := ih (EventQueue.add tm e q) hq'
    refine ⟨by simpa using h1, fun t => ?_⟩
    have h3 := h2 t
    rw [List.foldl_cons, h3, EventQueue.add_filter tm e q hq t,
      List.filter_cons]
    by_cases het : tm e = t <;> simp [het]

/-- C7: after any sequence of `add` calls the queue delivers events in
ascending time order — successive `poll` calls return the queued events
sorted by non-decreasing time with equal-time events in insertion order,
`poll` on an empty queue returns an empty result, `peek` observes the
earliest event without removing it, and insertions at times `[5, 1, 3]`
are polled back as `1, 3, 5`. -/
theorem c7_event_queue_ascending_delivery :
    (∀ (E τ : Type) [LinearOrder τ] (tm : E → τ) (es : List E),
        List.Pairwise (fun a b => tm a ≤ tm b) (EventQueue.addAll tm es)
        ∧ ∀ t, (EventQueue.addAll tm es).filter (fun e => decide (tm e = t))
            = es.filter (fun e => decide (tm e = t)))
    ∧ (∀ (E : Type) (q : EventQueue E), EventQueue.drain q = q)
    ∧ (∀ (E : Type) (e : E) (q : EventQueue E),
        EventQueue.poll (e :: q) = (some e, q))
    ∧ (∀ (E : Type), EventQueue.poll ([] : EventQueue E) = (none, []))
    ∧ (∀ (E : Type) (q : EventQueue E),
        EventQueue.peek q = (EventQueue.poll q).1
        ∧ (EventQueue.poll q).2 = q.tail)
    ∧ EventQueue.drain (EventQueue.addAll (id : ℕ → ℕ) [5, 1, 3])
        = [1, 3, 5] := by
  refine ⟨?_, ?_, ?_, ?_, ?_, ?_⟩
  · intro E τ _ tm es
    exact EventQueue.addAll_sorted_stable tm es
  · intro E q
    induction q with
    | nil => rfl
    | cons e q ih => simp [EventQueue.drain, ih]
  · intro E e q
    rfl
  · intro E
    rfl
  · intro E q
    exact ⟨rfl, rfl⟩
  · decide

theorem Vec.lengthSq_nonneg (a : Vec) : 0 ≤ a.lengthSq := by
  have hx : 0 ≤ a.x * a.x := mul_self_nonneg _
  have hy : 0 ≤ a.y * a.y := mul_self_nonneg _
  simpa [Vec.lengthSq] using add_nonneg hx hy

theorem Vec.length_eq_zero_iff (a : Vec) : a.length = 0 ↔ a.lengthSq = 0 := by
  constructor
  · intro h
    have := Real.sqrt_eq_zero'.mp h
    exact le_antisymm this (Vec.lengthSq_nonneg a)
  · intro h
    simp [Vec.length, h]

/-- Evaluation rule for `normalize` on a vector of nonzero squared
length. -/
theorem Vec.normalize_ok (a : Vec) (h : a.lengthSq ≠ 0) :
    a.normalize = .ok ⟨a.x / a.length, a.y / a.length⟩ := by
  have : ¬ a.length = 0 := fun hc => h ((Vec.length_eq_zero_iff a).mp hc)
  simp [Vec.normalize, this]

/-- Evaluation rule for `normalize` on a zero-length vector. -/
theorem Vec.normalize_err (a : Vec) (h : a.lengthSq = 0) :
    a.normalize = .error "Cannot normalize zero vector" := by
  have : a.length = 0 := (Vec.length_eq_zero_iff a).mpr h
  simp [Vec.normalize, this]

/-- A successfully normalized vector has unit length. -/
theorem Vec.length_normalize (a w : Vec) (h : a.normalize = .ok w) :
    w.length = 1 := by
  by_cases h0 : a.length = 0
  · simp [Vec.normalize, h0] at h
  · have hsq : a.lengthSq ≠ 0 := fun hc => h0 ((Vec.length_eq_zero_iff a).mpr hc)
    rw [Vec.normalize_ok a hsq] at h
    cases h
    have hlen : a.length * a.length = a.lengthSq :=
      Real.mul_self_sqrt (Vec.lengthSq_nonneg a)
    have hw : Vec.lengthSq ⟨a.x / a.length, a.y / a.length⟩ = 1 := by
      show a.x / a.length * (a.x / a.length) + a.y / a.length * (a.y / a.length) = 1
      field_simp
      exact hlen.symm
    show Real.sqrt _ = 1
    rw [hw, Real.sqrt_one]

/-! ## C9: `initialize()` preserves the vertex objects -/

theorem map_vkey_keep (f : Vertex → Vertex × Vertex → Vertex)
    (hf : ∀ v pn, vkey (f v pn) = vkey v) :
    ∀ (vs : List Vertex) (ws : List (Vertex × Vertex)),
      vs.length ≤ ws.length →
      (List.zipWith f vs ws).map vkey = vs.map vkey := by
  intro vs
  induction vs with
  | nil => intro ws _; simp
  | cons v vs ih =>
    intro ws hlen
    cases ws with
    | nil => simp at hlen
    | cons w ws =>
      simp only [List.zipWith_cons_cons, List.map_cons, hf v w,
        ih ws (by simpa using hlen)]

theorem relink_vkeys (vs : List Vertex) :
    (relink vs).map vkey = vs.map vkey := by
  apply map_vkey_keep
  · intro v pn; rfl
  · simp [rotPrev, rotNext]

theorem setBisectors_vkeys (ctx : List Vertex) (l : List Vertex) :
    ((setBisectors ctx l).1).map vkey = l.map vkey := by
  induction l with
  | nil => simp [setBisectors]
  | cons v rest ih =>
    cases h : bisectorFor ctx v with
    | error e => simp [setBisectors, h]
    | ok b => simp [setBisectors, h, vkey] at ih ⊢; exact ih

theorem Polygon.initialize_vkeys (fresh : ℕ) (p : Polygon) :
    (( Polygon.initialize fresh p).1.1).vertices.map vkey
      = p.vertices.map vkey := by
  show ((setBisectors (relink p.vertices) (relink p.vertices)).1).map vkey
      = p.vertices.map vkey
  rw [setBisectors_vkeys, relink_vkeys]

/-- C9: whenever `Polygon.initialize()` returns (in particular whenever
it returns without error, as the claim states), the polygon's vertex
array afterwards holds exactly the same `Vertex` objects, in the same
order, with unchanged position values; `id` and `position` being the
only vertex fields besides `prev`/`next`/`bisector`, only those links,
the bisectors and the edge array are modified. -/
theorem c9_initialize_preserves_vertex_identity (fresh : ℕ) (p : Polygon) :
    (( Polygon.initialize fresh p).1.1).vertices.map vkey
      = p.vertices.map vkey :=
  Polygon.initialize_vkeys fresh p

@[simp] theorem exceptBind_ok {α β : Type} (a : α) (k : α → Except String β) :
    (Except.ok a >>= k) = k a := rfl

@[simp] theorem exceptBind_err {α β : Type} (e : String) (k : α → Except String β) :
    ((Except.error e : Except String α) >>= k) = .error e := rfl

theorem specBisector_unit (pos pp np b : Vec)
    (h : specBisector pos pp np = .ok b) : Vec.length b = 1 := by
  unfold specBisector at h
  cases h1 : (pp.minus pos).normalize with
  | error e => rw [h1, exceptBind_err] at h; cases h
  | ok tp =>
    rw [h1, exceptBind_ok] at h
    cases h2 : (np.minus pos).normalize with
    | error e => rw [h2, exceptBind_err] at h; cases h
    | ok tn =>
      rw [h2, exceptBind_ok] at h
      exact Vec.length_normalize _ _ h

theorem bisectorFor_ok (ctx : List Vertex) (v : Vertex) (b : Vec)
    (h : bisectorFor ctx v = .ok b) :
    ∃ pidx nidx pv nv, v.prev = some pidx ∧ v.next = some nidx
      ∧ findVert ctx pidx = some pv ∧ findVert ctx nidx = some nv
      ∧ specBisector v.position pv.position nv.position = .ok b := by
  unfold bisectorFor at h
  cases hp : v.prev with
  | none => rw [hp] at h; cases h
  | some pidx =>
    cases hn : v.next with
    | none => rw [hp, hn] at h; cases h
    | some nidx =>
      rw [hp, hn] at h
      dsimp only at h
      cases hfp : findVert ctx pidx with
      | none =>
        rw [hfp] at h
        dsimp only at h
        cases h
      | some pv =>
        cases hfn : findVert ctx nidx with
        | none =>
          rw [hfp, hfn] at h
          dsimp only at h
          cases h
        | some nv =>
          rw [hfp, hfn] at h
          dsimp only at h
          exact ⟨pidx, nidx, pv, nv, rfl, rfl, hfp, hfn, h⟩

theorem setBisectors_ok_mem (ctx : List Vertex) :
    ∀ (l : List Vertex), (setBisectors ctx l).2 = none →
      ∀ v' ∈ (setBisectors ctx l).1, ∃ v ∈ l,
        bisectorFor ctx v = .ok v'.bisector
        ∧ v'.id = v.id ∧ v'.position = v.position
        ∧ v'.prev = v.prev ∧ v'.next = v.next := by
  intro l
  induction l with
  | nil =>
    intro _ v' hv'
    simp [setBisectors] at hv'
  | cons v rest ih =>
    intro herr v' hv'
    cases hb : bisectorFor ctx v with
    | error e => rw [show setBisectors ctx (v :: rest)
        = (v :: rest, some e) by simp [setBisectors, hb]] at herr; cases herr
    | ok b =>
      rw [show setBisectors ctx (v :: rest)
          = ({ v with bisector := b } :: (setBisectors ctx rest).1,
             (setBisectors ctx rest).2) by simp [setBisectors, hb]] at herr hv'
      rcases List.mem_cons.mp hv' with rfl | hmem
      · exact ⟨v, List.mem_cons_self v rest, by simpa using hb, rfl, rfl, rfl, rfl⟩
      · obtain ⟨w, hw, hrest⟩ := ih herr v' hmem
        exact ⟨w, List.mem_cons_of_mem v hw, hrest⟩

theorem findVert_vkey_congr :
    ∀ (l l2 : List Vertex), l.map vkey = l2.map vkey → ∀ i,
      (findVert l i).map vkey = (findVert l2 i).map vkey := by
  intro l
  induction l with
  | nil =>
    intro l2 h i
    cases l2 with
    | nil => rfl
    | cons w l2 => simp at h
  | cons v l ih =>
    intro l2 h i
    cases l2 with
    | nil => simp at h
    | cons w l2 =>
      simp only [List.map_cons, List.cons.injEq] at h
      obtain ⟨hvw, hrest⟩ := h
      have hid : v.id = w.id := congrArg Prod.fst hvw
      by_cases hi : (v.id == i) = true
      · rw [findVert, @List.find?_cons_of_pos _ (fun x => x.id == i) v l hi,
          findVert,
          @List.find?_cons_of_pos _ (fun x => x.id == i) w l2
            (by show (w.id == i) = true; rw [← hid]; exact hi)]
        simpa using hvw
      · rw [findVert, @List.find?_cons_of_neg _ (fun x => x.id == i) v l hi,
          findVert,
          @List.find?_cons_of_neg _ (fun x => x.id == i) w l2
            (by show ¬(w.id == i) = true; rw [← hid]; exact hi)]
        exact ih l2 hrest i

/-- C8: after every `initialize()` run that returns without error, every
vertex of the result has bisector equal to
`normalize(normalize(toPrev) + normalize(toNext))` — `toPrev`/`toNext`
pointing away from the vertex toward its linked `prev`/`next` neighbors
— and that bisector is unit length. -/
theorem c8_initialize_bisector_spec (fresh : ℕ) (p : Polygon)
    (h : ( Polygon.initialize fresh p).2 = none) :
    ∀ v' ∈ (( Polygon.initialize fresh p).1.1).vertices,
      (∃ pidx nidx pv nv,
        v'.prev = some pidx ∧ v'.next = some nidx
        ∧ findVert (( Polygon.initialize fresh p).1.1).vertices pidx = some pv
        ∧ findVert (( Polygon.initialize fresh p).1.1).vertices nidx = some nv
        ∧ specBisector v'.position pv.position nv.position = .ok v'.bisector)
      ∧ Vec.length v'.bisector = 1 := by
  intro v' hv'
  have herr : (setBisectors (relink p.vertices) (relink p.vertices)).2 = none := h
  have hout : (( Polygon.initialize fresh p).1.1).vertices
      = (setBisectors (relink p.vertices) (relink p.vertices)).1 := rfl
  obtain ⟨v, hvmem, hbis, hid, hpos, hprev, hnext⟩ :=
    setBisectors_ok_mem (relink p.vertices) (relink p.vertices) herr v'
      (hout ▸ hv')
  obtain ⟨pidx, nidx, pv, nv, hp, hn, hfp, hfn, hspec⟩ :=
    bisectorFor_ok (relink p.vertices) v _ hbis
  have hkeys : (relink p.vertices).map vkey
      = (( Polygon.initialize fresh p).1.1).vertices.map vkey := by
    rw [hout, setBisectors_vkeys]
  have hfp2 := findVert_vkey_congr (relink p.vertices) _ hkeys pidx
  have hfn2 := findVert_vkey_congr (relink p.vertices) _ hkeys nidx
  rw [hfp] at hfp2
  rw [hfn] at hfn2
  cases hq1 : findVert (( Polygon.initialize fresh p).1.1).vertices pidx with
  | none => rw [hq1] at hfp2; simp at hfp2
  | some pv2 =>
    cases hq2 : findVert (( Polygon.initialize fresh p).1.1).vertices nidx with
    | none => rw [hq2] at hfn2; simp at hfn2
    | some nv2 =>
      rw [hq1] at hfp2
      rw [hq2] at hfn2
      simp only [Option.map_some', Option.some.injEq] at hfp2 hfn2
      have hpvpos : pv2.position = pv.position := by
        have := congrArg Prod.snd hfp2
        simpa [vkey] using this.symm
      have hnvpos : nv2.position = nv.position := by
        have := congrArg Prod.snd hfn2
        simpa [vkey] using this.symm
      refine ⟨⟨pidx, nidx, pv2, nv2, by rw [hprev, hp], by rw [hnext, hn],
        hq1, hq2, ?_⟩, ?_⟩
      · rw [hpos, hpvpos, hnvpos]
        exact hspec
      · exact specBisector_unit v.position pv.position nv.position _ hspec

/-! ## Concrete-evaluation helpers -/

theorem Vec.lengthSq_ne_of_x (a : Vec) (h : a.x ≠ 0) : a.lengthSq ≠ 0 := by
  have h1 : 0 < a.x * a.x := mul_self_pos.mpr h
  have h2 : 0 ≤ a.y * a.y := mul_self_nonneg a.y
  unfold Vec.lengthSq
  nlinarith

theorem Vec.lengthSq_ne_of_y (a : Vec) (h : a.y ≠ 0) : a.lengthSq ≠ 0 := by
  have h1 : 0 < a.y * a.y := mul_self_pos.mpr h
  have h2 : 0 ≤ a.x * a.x := mul_self_nonneg a.x
  unfold Vec.lengthSq
  nlinarith

theorem Vec.length_eval (a : Vec) (r : ℝ) (h0 : 0 ≤ r) (h : a.lengthSq = r ^ 2) :
    a.length = r := by
  rw [Vec.length, h, Real.sqrt_sq h0]

theorem Vec.normalize_eval (a : Vec) (r : ℝ) (h0 : 0 < r)
    (h : a.lengthSq = r ^ 2) :
    a.normalize = .ok ⟨a.x / r, a.y / r⟩ := by
  have hne : a.lengthSq ≠ 0 := by rw [h]; positivity
  rw [Vec.normalize_ok a hne, Vec.length_eval a r (le_of_lt h0) h]

theorem normPP : Vec.normalize ⟨4, 0⟩ = .ok ⟨1, 0⟩ := by
  rw [Vec.normalize_eval ⟨4, 0⟩ 4 (by norm_num) (by norm_num [Vec.lengthSq])]
  norm_num

theorem normQP : Vec.normalize ⟨0, 3⟩ = .ok ⟨0, 1⟩ := by
  rw [Vec.normalize_eval ⟨0, 3⟩ 3 (by norm_num) (by norm_num [Vec.lengthSq])]
  norm_num

theorem normQN : Vec.normalize ⟨0, -3⟩ = .ok ⟨0, -1⟩ := by
  rw [Vec.normalize_eval ⟨0, -3⟩ 3 (by norm_num) (by norm_num [Vec.lengthSq])]
  norm_num

theorem normPN : Vec.normalize ⟨-4, 0⟩ = .ok ⟨-1, 0⟩ := by
  rw [Vec.normalize_eval ⟨-4, 0⟩ 4 (by norm_num) (by norm_num [Vec.lengthSq])]
  norm_num

theorem sqCW_init_ok : ( Polygon.initialize 20 sqCW).2 = none := by
  have f0 : findVert sqCW.vertices 0
      = some ⟨0, ⟨0, 0⟩, some 3, some 1, ⟨0, 0⟩⟩ := rfl
  have f1 : findVert sqCW.vertices 1
      = some ⟨1, ⟨0, 3⟩, some 0, some 2, ⟨0, 0⟩⟩ := rfl
  have f2 : findVert sqCW.vertices 2
      = some ⟨2, ⟨4, 3⟩, some 1, some 3, ⟨0, 0⟩⟩ := rfl
  have f3 : findVert sqCW.vertices 3
      = some ⟨3, ⟨4, 0⟩, some 2, some 0, ⟨0, 0⟩⟩ := rfl
  have sA := Vec.normalize_ok ⟨1, 1⟩ (by norm_num [Vec.lengthSq])
  have sB := Vec.normalize_ok ⟨1, -1⟩ (by norm_num [Vec.lengthSq])
  have sC := Vec.normalize_ok ⟨-1, -1⟩ (by norm_num [Vec.lengthSq])
  have sD := Vec.normalize_ok ⟨-1, 1⟩ (by norm_num [Vec.lengthSq])
  have hs : sqCW.vertices
      = ⟨0, ⟨0, 0⟩, some 3, some 1, ⟨0, 0⟩⟩
        :: ⟨1, ⟨0, 3⟩, some 0, some 2, ⟨0, 0⟩⟩
        :: ⟨2, ⟨4, 3⟩, some 1, some 3, ⟨0, 0⟩⟩
        :: ⟨3, ⟨4, 0⟩, some 2, some 0, ⟨0, 0⟩⟩ :: [] := rfl
  show (setBisectors (relink sqCW.vertices) (relink sqCW.vertices)).2 = none
  rw [show relink sqCW.vertices = sqCW.vertices from rfl]
  nth_rewrite 2 [hs]
  norm_num [setBisectors, bisectorFor, f0, f1, f2, f3, Vec.minus, Vec.plus,
    normPP, normQP, normQN, normPN, sA, sB, sC, sD]

/-- C8 witness: the clockwise rectangle's `initialize()` run succeeds,
and the theorem's conclusion holds for it. -/
theorem c8_initialize_bisector_spec_witness :
    ( Polygon.initialize 20 sqCW).2 = none
    ∧ ∀ v' ∈ (( Polygon.initialize 20 sqCW).1.1).vertices,
      (∃ pidx nidx pv nv,
        v'.prev = some pidx ∧ v'.next = some nidx
        ∧ findVert (( Polygon.initialize 20 sqCW).1.1).vertices pidx = some pv
        ∧ findVert (( Polygon.initialize 20 sqCW).1.1).vertices nidx = some nv
        ∧ specBisector v'.position pv.position nv.position = .ok v'.bisector)
      ∧ Vec.length v'.bisector = 1 :=
  ⟨sqCW_init_ok, c8_initialize_bisector_spec 20 sqCW sqCW_init_ok⟩

/-! ## C6: precondition violations fail at the point of call -/

/-- C6: `normalize()` on a zero-length vector fails with the zero-vector
error; constructing an `EdgeEvent` over an edge with a reflex endpoint
fails in the constructor; constructing a `SplitEvent` at a non-reflex
vertex, or over an edge adjacent to the splitting vertex, fails in the
constructor. -/
theorem c6_precondition_failures :
    (∀ v : Vec, v.length = 0
      → v.normalize = .error "Cannot normalize zero vector")
    ∧ (∀ (p : Polygon) (t : ℝ) (e : Edge), 0 ≤ t
      → Edge.hasReflexEndpoint p e = .ok true
      → EdgeEvent.make p t e
          = .error "Edge cannot have reflex vertices for edge event")
    ∧ (∀ (p : Polygon) (t : ℝ) (v : Vertex) (e : Edge) (inter : Vec), 0 ≤ t
      → Vertex.isReflex p.vertices v = .ok false
      → SplitEvent.make p t v e inter
          = .error "Split events can only occur at reflex vertices")
    ∧ (∀ (p : Polygon) (t : ℝ) (v : Vertex) (e : Edge) (inter : Vec), 0 ≤ t
      → Vertex.isReflex p.vertices v = .ok true
      → Edge.isAdjacent p e v.id = .ok true
      → SplitEvent.make p t v e inter
          = .error "Split edge cannot be adjacent to splitting vertex") := by
  refine ⟨?_, ?_, ?_, ?_⟩
  · intro v h
    simp [Vec.normalize, h]
  · intro p t e ht hr
    unfold EdgeEvent.make Event.checkTime
    rw [if_neg (not_lt.mpr ht), exceptBind_ok, hr, exceptBind_ok]
    rfl
  · intro p t v e inter ht hr
    unfold SplitEvent.make Event.checkTime
    rw [if_neg (not_lt.mpr ht), exceptBind_ok, hr, exceptBind_ok]
    rfl
  · intro p t v e inter ht hr hadj
    unfold SplitEvent.make Event.checkTime
    rw [if_neg (not_lt.mpr ht), exceptBind_ok, hr, exceptBind_ok]
    show (Edge.isAdjacent p e v.id >>= fun adj => _) = _
    rw [hadj, exceptBind_ok]
    rfl

theorem sqCCW_v0_reflex :
    Vertex.isReflex sqCCW.vertices ⟨0, ⟨0, 0⟩, some 3, some 1, ⟨0, 0⟩⟩
      = .ok true := by
  have f1 : findVert sqCCW.vertices 1
      = some ⟨1, ⟨4, 0⟩, some 0, some 2, ⟨0, 0⟩⟩ := rfl
  have f3 : findVert sqCCW.vertices 3
      = some ⟨3, ⟨0, 3⟩, some 2, some 0, ⟨0, 0⟩⟩ := rfl
  norm_num [Vertex.isReflex, f1, f3, Vec.minus, Vec.cross, decide_eq_true_eq]

theorem sqCW_v0_not_reflex :
    Vertex.isReflex sqCW.vertices ⟨0, ⟨0, 0⟩, some 3, some 1, ⟨0, 0⟩⟩
      = .ok false := by
  have f1 : findVert sqCW.vertices 1
      = some ⟨1, ⟨0, 3⟩, some 0, some 2, ⟨0, 0⟩⟩ := rfl
  have f3 : findVert sqCW.vertices 3
      = some ⟨3, ⟨4, 0⟩, some 2, some 0, ⟨0, 0⟩⟩ := rfl
  norm_num [Vertex.isReflex, f1, f3, Vec.minus, Vec.cross]

/-- C6 witness: the zero vector, an edge of the counterclockwise
rectangle (whose endpoints the source's reflex test classifies as
reflex), a non-reflex corner of the clockwise rectangle, and an
adjacent edge at a reflex corner. -/
theorem c6_precondition_failures_witness :
    Vec.normalize ⟨0, 0⟩ = .error "Cannot normalize zero vector"
    ∧ EdgeEvent.make sqCCW 1 ⟨10, 0, 1⟩
        = .error "Edge cannot have reflex vertices for edge event"
    ∧ SplitEvent.make sqCW 1 ⟨0, ⟨0, 0⟩, some 3, some 1, ⟨0, 0⟩⟩ ⟨11, 1, 2⟩
        ⟨0, 0⟩ = .error "Split events can only occur at reflex vertices"
    ∧ SplitEvent.make sqCCW 1 ⟨0, ⟨0, 0⟩, some 3, some 1, ⟨0, 0⟩⟩ ⟨11, 1, 2⟩
        ⟨0, 0⟩ = .error "Split edge cannot be adjacent to splitting vertex" := by
  refine ⟨?_, ?_, ?_, ?_⟩
  · exact c6_precondition_failures.1 ⟨0, 0⟩
      ((Vec.length_eq_zero_iff ⟨0, 0⟩).mpr (by norm_num [Vec.lengthSq]))
  · refine c6_precondition_failures.2.1 sqCCW 1 ⟨10, 0, 1⟩ (by norm_num) ?_
    have h0 : Edge.endpoints sqCCW ⟨10, 0, 1⟩
        = .ok (⟨0, ⟨0, 0⟩, some 3, some 1, ⟨0, 0⟩⟩,
               ⟨1, ⟨4, 0⟩, some 0, some 2, ⟨0, 0⟩⟩) := rfl
    rw [Edge.hasReflexEndpoint, h0, exceptBind_ok]
    dsimp only
    rw [sqCCW_v0_reflex, exceptBind_ok]
    rfl
  · exact c6_precondition_failures.2.2.1 sqCW 1 _ ⟨11, 1, 2⟩ ⟨0, 0⟩
      (by norm_num) sqCW_v0_not_reflex
  · exact c6_precondition_failures.2.2.2 sqCCW 1 _ ⟨11, 1, 2⟩ ⟨0, 0⟩
      (by norm_num) sqCCW_v0_reflex rfl

/-! ## C1: edge-event application and the wrap-around edge -/

theorem initialize_pair (fresh : ℕ) (p : Polygon)
    (h : ( Polygon.initialize fresh p).2 = none) :
    Polygon.initialize fresh p
      = ((( Polygon.initialize fresh p).1.1,
          ( Polygon.initialize fresh p).1.2), none) := by
  rw [← h]

theorem initialize_ids (fresh : ℕ) (p : Polygon) :
    (( Polygon.initialize fresh p).1.1).vertices.map (fun v => v.id)
      = p.vertices.map (fun v => v.id) := by
  have h := congrArg (List.map Prod.fst) ( Polygon.initialize_vkeys fresh p)
  simpa [List.map_map, vkey, Function.comp] using h

theorem norm43 : Vec.normalize ⟨4, 3⟩ = .ok ⟨4 / 5, 3 / 5⟩ :=
  Vec.normalize_eval ⟨4, 3⟩ 5 (by norm_num) (by norm_num [Vec.lengthSq])

theorem norm43N : Vec.normalize ⟨-4, -3⟩ = .ok ⟨-4 / 5, -3 / 5⟩ := by
  rw [Vec.normalize_eval ⟨-4, -3⟩ 5 (by norm_num) (by norm_num [Vec.lengthSq])]

theorem sqCWspliced_init_ok : ( Polygon.initialize 20 sqCWspliced).2 = none := by
  have hrelink : relink sqCWspliced.vertices
      = ⟨0, ⟨0, 0⟩, some 2, some 1, ⟨0, 0⟩⟩
        :: ⟨1, ⟨0, 3⟩, some 0, some 2, ⟨0, 0⟩⟩
        :: ⟨2, ⟨4, 3⟩, some 1, some 0, ⟨0, 0⟩⟩ :: [] := rfl
  have f0 : findVert (relink sqCWspliced.vertices) 0
      = some ⟨0, ⟨0, 0⟩, some 2, some 1, ⟨0, 0⟩⟩ := rfl
  have f1 : findVert (relink sqCWspliced.vertices) 1
      = some ⟨1, ⟨0, 3⟩, some 0, some 2, ⟨0, 0⟩⟩ := rfl
  have f2 : findVert (relink sqCWspliced.vertices) 2
      = some ⟨2, ⟨4, 3⟩, some 1, some 0, ⟨0, 0⟩⟩ := rfl
  have sE := Vec.normalize_ok ⟨4 / 5, 8 / 5⟩ (by norm_num [Vec.lengthSq])
  have sF := Vec.normalize_ok ⟨1, -1⟩ (by norm_num [Vec.lengthSq])
  have sG := Vec.normalize_ok ⟨-(9 / 5), -(3 / 5)⟩ (by norm_num [Vec.lengthSq])
  show (setBisectors (relink sqCWspliced.vertices)
      (relink sqCWspliced.vertices)).2 = none
  nth_rewrite 2 [hrelink]
  norm_num [setBisectors, bisectorFor, f0, f1, f2, Vec.minus, Vec.plus,
    normPP, normQP, normQN, normPN, norm43, norm43N, sE, sF, sG]

theorem sqCW_v3_not_reflex :
    Vertex.isReflex sqCW.vertices ⟨3, ⟨4, 0⟩, some 2, some 0, ⟨0, 0⟩⟩
      = .ok false := by
  have f0 : findVert sqCW.vertices 0
      = some ⟨0, ⟨0, 0⟩, some 3, some 1, ⟨0, 0⟩⟩ := rfl
  have f2 : findVert sqCW.vertices 2
      = some ⟨2, ⟨4, 3⟩, some 1, some 3, ⟨0, 0⟩⟩ := rfl
  norm_num [Vertex.isReflex, f0, f2, Vec.minus, Vec.cross]

theorem wrap_edge_still_valid :
    EdgeEvent.isStillValid ⟨[sqCW], [0]⟩ ⟨13, 3, 0⟩ = .ok true := by
  have hcur : Wavefront.getCurrentPolygon ⟨[sqCW], [0]⟩ = .ok sqCW := rfl
  have hend : Edge.endpoints sqCW ⟨13, 3, 0⟩
      = .ok (⟨3, ⟨4, 0⟩, some 2, some 0, ⟨0, 0⟩⟩,
             ⟨0, ⟨0, 0⟩, some 3, some 1, ⟨0, 0⟩⟩) := rfl
  have hrefl : Edge.hasReflexEndpoint sqCW ⟨13, 3, 0⟩ = .ok false := by
    rw [Edge.hasReflexEndpoint, hend, exceptBind_ok]
    dsimp only
    rw [sqCW_v3_not_reflex, exceptBind_ok]
    simp [sqCW_v0_not_reflex]
  have hE : sqCW.hasEdge ⟨13, 3, 0⟩ = true := rfl
  have hV : (sqCW.hasVertexId 3 && sqCW.hasVertexId 0) = true := rfl
  rw [EdgeEvent.isStillValid, hcur, exceptBind_ok]
  dsimp only
  simp [hE, hV, hrefl]

/-- C1 as evaluated on the failing input: processing the revalidated
edge event for the wrap-around edge `⟨13, 3, 0⟩` of the clockwise
rectangle (its `v1` is the last vertex, 3; its `v2` the first, 0)
succeeds, and the resulting vertex sequence still contains vertex 0 —
`v2` is NOT removed, because `vertices.splice(vertexIndex, 2)` at the
last index removes a single element.  The claim requires both `v1` and
`v2` removed. -/
theorem c1_wrap_edge_keeps_v2 :
    EdgeEvent.isStillValid ⟨[sqCW], [0]⟩ ⟨13, 3, 0⟩ = .ok true
    ∧ (EdgeEvent.process 20 ⟨[sqCW], [0]⟩ ⟨13, 3, 0⟩).map
        (fun r => (r.1.polygons.getLast?).map
          (fun p => p.vertices.map (fun v => v.id)))
      = .ok (some [0, 1, 2]) := by
  refine ⟨wrap_edge_still_valid, ?_⟩
  have hcur : Wavefront.getCurrentPolygon ⟨[sqCW], [0]⟩ = .ok sqCW := rfl
  rw [EdgeEvent.process, wrap_edge_still_valid, exceptBind_ok]
  rw [if_neg (by norm_num)]
  rw [Wavefront.handleEdgeEvent, hcur, exceptBind_ok]
  dsimp only
  have hf1 : List.findIdx? (fun v => v.id == (3 : ℕ)) sqCW.vertices
      = some 3 := rfl
  have hf2 : List.findIdx? (fun e2 => e2.id == (13 : ℕ)) sqCW.edges
      = some 3 := rfl
  rw [hf1, hf2]
  dsimp only
  have hsp : ({ vertices := spliceRemove sqCW.vertices 3 2,
                edges := spliceRemove sqCW.edges 3 1 } : Polygon)
      = sqCWspliced := rfl
  rw [hsp, initialize_pair 20 sqCWspliced sqCWspliced_init_ok]
  dsimp only
  rw [show ∀ (f : Wavefront × ℕ → Option (List ℕ)) (x : Wavefront × ℕ),
      Except.map f (Except.ok x) = Except.ok (f x) from fun f x => rfl]
  have hlast : (Wavefront.setCurrentPolygon ⟨[sqCW], [0]⟩
        ( Polygon.initialize 20 sqCWspliced).1.1).polygons.getLast?
      = some ( Polygon.initialize 20 sqCWspliced).1.1 := rfl
  rw [hlast]
  simp only [Option.map_some']
  rw [initialize_ids]
  rfl

/-! ## C3: per-event error boundaries -/

theorem triCW_v0_not_reflex :
    Vertex.isReflex triCW.vertices ⟨0, ⟨0, 0⟩, some 2, some 1, ⟨0, 0⟩⟩
      = .ok false := by
  have f1 : findVert triCW.vertices 1
      = some ⟨1, ⟨0, 3⟩, some 0, some 2, ⟨0, 0⟩⟩ := rfl
  have f2 : findVert triCW.vertices 2
      = some ⟨2, ⟨4, 0⟩, some 1, some 0, ⟨0, 0⟩⟩ := rfl
  norm_num [Vertex.isReflex, f1, f2, Vec.minus, Vec.cross]

theorem triCW_v1_not_reflex :
    Vertex.isReflex triCW.vertices ⟨1, ⟨0, 3⟩, some 0, some 2, ⟨0, 0⟩⟩
      = .ok false := by
  have f0 : findVert triCW.vertices 0
      = some ⟨0, ⟨0, 0⟩, some 2, some 1, ⟨0, 0⟩⟩ := rfl
  have f2 : findVert triCW.vertices 2
      = some ⟨2, ⟨4, 0⟩, some 1, some 0, ⟨0, 0⟩⟩ := rfl
  norm_num [Vertex.isReflex, f0, f2, Vec.minus, Vec.cross]

theorem triCW_edge0_still_valid :
    EdgeEvent.isStillValid ⟨[triCW], [0]⟩ ⟨10, 0, 1⟩ = .ok true := by
  have hcur : Wavefront.getCurrentPolygon ⟨[triCW], [0]⟩ = .ok triCW := rfl
  have hend : Edge.endpoints triCW ⟨10, 0, 1⟩
      = .ok (⟨0, ⟨0, 0⟩, some 2, some 1, ⟨0, 0⟩⟩,
             ⟨1, ⟨0, 3⟩, some 0, some 2, ⟨0, 0⟩⟩) := rfl
  have hrefl : Edge.hasReflexEndpoint triCW ⟨10, 0, 1⟩ = .ok false := by
    rw [Edge.hasReflexEndpoint, hend, exceptBind_ok]
    dsimp only
    rw [triCW_v0_not_reflex, exceptBind_ok]
    simp [triCW_v1_not_reflex]
  have hE : triCW.hasEdge ⟨10, 0, 1⟩ = true := rfl
  have hV : (triCW.hasVertexId 0 && triCW.hasVertexId 1) = true := rfl
  rw [EdgeEvent.isStillValid, hcur, exceptBind_ok]
  dsimp only
  simp [hE, hV, hrefl]

theorem initialize_pair_err (fresh : ℕ) (p : Polygon) (msg : String)
    (h : ( Polygon.initialize fresh p).2 = some msg) :
    Polygon.initialize fresh p
      = ((( Polygon.initialize fresh p).1.1,
          ( Polygon.initialize fresh p).1.2), some msg) := by
  rw [← h]

theorem triRem_init_err :
    ( Polygon.initialize 20 triRem).2 = some "Cannot normalize zero vector" := by
  have hrelink : relink triRem.vertices
      = ⟨2, ⟨4, 0⟩, some 2, some 2, ⟨0, 0⟩⟩ :: [] := rfl
  have f2 : findVert (relink triRem.vertices) 2
      = some ⟨2, ⟨4, 0⟩, some 2, some 2, ⟨0, 0⟩⟩ := rfl
  have z : Vec.normalize ⟨0, 0⟩ = .error "Cannot normalize zero vector" :=
    Vec.normalize_err ⟨0, 0⟩ (by norm_num [Vec.lengthSq])
  show (setBisectors (relink triRem.vertices) (relink triRem.vertices)).2
      = some "Cannot normalize zero vector"
  nth_rewrite 2 [hrelink]
  norm_num [setBisectors, bisectorFor, f2, Vec.minus, z]

theorem triCW_process_err :
    Ev.process 20 ⟨[triCW], [0]⟩ (.edge 1 ⟨10, 0, 1⟩)
      = .error "Cannot normalize zero vector" := by
  have hcur : Wavefront.getCurrentPolygon ⟨[triCW], [0]⟩ = .ok triCW := rfl
  show EdgeEvent.process 20 ⟨[triCW], [0]⟩ ⟨10, 0, 1⟩ = _
  rw [EdgeEvent.process, triCW_edge0_still_valid, exceptBind_ok]
  rw [if_neg (by norm_num)]
  rw [Wavefront.handleEdgeEvent, hcur, exceptBind_ok]
  dsimp only
  have hf1 : List.findIdx? (fun v => v.id == (0 : ℕ)) triCW.vertices
      = some 0 := rfl
  have hf2 : List.findIdx? (fun e2 => e2.id == (10 : ℕ)) triCW.edges
      = some 0 := rfl
  rw [hf1, hf2]
  dsimp only
  have hsp : ({ vertices := spliceRemove triCW.vertices 0 2,
                edges := spliceRemove triCW.edges 0 1 } : Polygon)
      = triRem := rfl
  rw [hsp, initialize_pair_err 20 triRem _ triRem_init_err]

/-- C3 counterexample: a state of the `Skeleton.ts` pipeline — the
clockwise triangle with two queued edge events — where applying the
first (revalidated) event throws (the collapse leaves one vertex, whose
relink makes `toPrev` the zero vector, so `initialize()` throws): the
whole `compute` run aborts with that error even though another event is
still queued, contradicting the claimed per-event catch boundary. -/
theorem c3_compute_abort_on_event_error :
    Skeleton.compute 2
      ⟨⟨[triCW], [0]⟩, [.edge 1 ⟨10, 0, 1⟩, .edge 2 ⟨11, 1, 2⟩], [], 20⟩
      = .error "Cannot normalize zero vector" := by
  show Skeleton.compute (1 + 1) _ = _
  rw [Skeleton.compute]
  have hpoll : EventQueue.poll
      ([.edge 1 ⟨10, 0, 1⟩, .edge 2 ⟨11, 1, 2⟩] : EventQueue Ev)
      = (some (.edge 1 ⟨10, 0, 1⟩), [.edge 2 ⟨11, 1, 2⟩]) := rfl
  rw [hpoll]
  dsimp only
  rw [triCW_process_err, exceptBind_err]

theorem P7.handleEdgeEvent_queue (s : P7St) (t : ℝ) (e : Edge) :
    (P7.handleEdgeEvent s t e).1.queue = s.queue := by
  unfold P7.handleEdgeEvent
  (repeat' split) <;> rfl

theorem P7.handleSplitEvent_queue (s : P7St) (t : ℝ) (vid : ℕ) (e : Edge)
    (inter : Vec) :
    (P7.handleSplitEvent s t vid e inter).1.queue = s.queue := by
  unfold P7.handleSplitEvent
  (repeat' split) <;> rfl

theorem P7.processStep_queue (s : P7St) (ev : Ev) :
    (P7.processStep s ev).queue = s.queue := by
  cases ev with
  | edge t e =>
    unfold P7.processStep
    dsimp only
    (repeat' split) <;> simp [P7.handleEdgeEvent_queue]
  | split t vid e inter =>
    unfold P7.processStep
    dsimp only
    (repeat' split) <;> simp [P7.handleSplitEvent_queue]

theorem P7.processEventsAux_queue :
    ∀ (l : List Ev) (s : P7St), s.queue = l
      → (P7.processEventsAux l s).queue = [] := by
  intro l
  induction l with
  | nil =>
    intro s hs
    simpa [P7.processEventsAux] using hs
  | cons ev rest ih =>
    intro s _
    show (P7.processEventsAux rest
      (P7.processStep { s with queue := rest } ev)).queue = []
    exact ih _ (P7.processStep_queue { s with queue := rest } ev)

/-- C3 amended: the `part_007` event-processing loop catches failures at
the per-event boundary — it has no error channel and always returns
normally with every queued event consumed — whereas the `Skeleton.ts`
`compute` loop has no per-event catch: whenever the polled event's
application raises an error, `compute` propagates exactly that error
and aborts, regardless of what remains queued. -/
theorem c3_per_event_error_boundary :
    (∀ s : P7St, (P7.processEvents s).queue = [])
    ∧ (∀ (fuel : ℕ) (s : SkeletonSt) (ev : Ev) (q' : EventQueue Ev)
        (msg : String),
        EventQueue.poll s.queue = (some ev, q')
        → Ev.process s.fresh s.wavefront ev = .error msg
        → Skeleton.compute (fuel + 1) s = .error msg) := by
  constructor
  · intro s
    exact P7.processEventsAux_queue s.queue s rfl
  · intro fuel s ev q' msg hpoll hproc
    rw [Skeleton.compute, hpoll]
    dsimp only
    rw [hproc, exceptBind_err]

/-- C3 amended witness: the triangle state instantiates the
`Skeleton.ts` half (and, with its queue, the `part_007` half). -/
theorem c3_per_event_error_boundary_witness :
    (P7.processEvents
      ⟨[.edge 1 ⟨10, 0, 1⟩], [triCW], [], [], [], 20⟩).queue = []
    ∧ Skeleton.compute 1
        ⟨⟨[triCW], [0]⟩, [.edge 1 ⟨10, 0, 1⟩, .edge 2 ⟨11, 1, 2⟩], [], 20⟩
        = .error "Cannot normalize zero vector" :=
  ⟨c3_per_event_error_boundary.1 ⟨[.edge 1 ⟨10, 0, 1⟩], [triCW], [], [], [], 20⟩,
   c3_per_event_error_boundary.2 0
     ⟨⟨[triCW], [0]⟩, [.edge 1 ⟨10, 0, 1⟩, .edge 2 ⟨11, 1, 2⟩], [], 20⟩
     (.edge 1 ⟨10, 0, 1⟩) [.edge 2 ⟨11, 1, 2⟩] "Cannot normalize zero vector"
     rfl triCW_process_err⟩

/-! ## C2: sub-tolerance sines in the collapse-time formula -/

theorem degSq_v0_not_reflex :
    Vertex.isReflex degSq.vertices ⟨0, ⟨0, 0⟩, some 3, some 1, ⟨0, 1⟩⟩
      = .ok false := by
  have f1 : findVert degSq.vertices 1
      = some ⟨1, ⟨0, 3⟩, some 0, some 2, ⟨1, 0⟩⟩ := rfl
  have f3 : findVert degSq.vertices 3
      = some ⟨3, ⟨4, 0⟩, some 2, some 0, ⟨1, 0⟩⟩ := rfl
  norm_num [Vertex.isReflex, f1, f3, Vec.minus, Vec.cross]

theorem degSq_v1_not_reflex :
    Vertex.isReflex degSq.vertices ⟨1, ⟨0, 3⟩, some 0, some 2, ⟨1, 0⟩⟩
      = .ok false := by
  have f0 : findVert degSq.vertices 0
      = some ⟨0, ⟨0, 0⟩, some 3, some 1, ⟨0, 1⟩⟩ := rfl
  have f2 : findVert degSq.vertices 2
      = some ⟨2, ⟨4, 3⟩, some 1, some 3, ⟨1, 0⟩⟩ := rfl
  norm_num [Vertex.isReflex, f0, f2, Vec.minus, Vec.cross]

theorem degSq_e0_endpoints :
    Edge.endpoints degSq ⟨10, 0, 1⟩
      = .ok (⟨0, ⟨0, 0⟩, some 3, some 1, ⟨0, 1⟩⟩,
             ⟨1, ⟨0, 3⟩, some 0, some 2, ⟨1, 0⟩⟩) := rfl

theorem degSq_e0_not_reflex :
    Edge.hasReflexEndpoint degSq ⟨10, 0, 1⟩ = .ok false := by
  rw [Edge.hasReflexEndpoint, degSq_e0_endpoints, exceptBind_ok]
  dsimp only
  rw [degSq_v0_not_reflex, exceptBind_ok]
  simp [degSq_v1_not_reflex]

theorem degSq_e0_direction :
    Edge.direction degSq ⟨10, 0, 1⟩ = .ok ⟨0, 1⟩ := by
  rw [Edge.direction, degSq_e0_endpoints, exceptBind_ok]
  dsimp only
  norm_num [Vec.minus, normQP]

theorem sinBetween_parallel : Angle.sinBetween ⟨0, 1⟩ ⟨0, 1⟩ = 0 := by
  norm_num [Angle.sinBetween, Vec.cross, Vec.dot]

/-- C2 amended, part (a): whenever either sine's magnitude in the
collapse-time formula is below the `1e-10` tolerance, the `part_007`
`calculateEdgeCollapseTime` THROWS "Angle sine too close to zero"
rather than silently skipping the edge. -/
theorem P7.calcTime_degenerate_throws (p : Polygon) (e : Edge) (d : Vec)
    (a b : Vertex)
    (hd : Edge.direction p e = .ok d)
    (hab : Edge.endpoints p e = .ok (a, b))
    (hsin : |Angle.sinBetween d a.bisector| < tol
      ∨ |Angle.sinBetween d b.bisector| < tol) :
    P7.calculateEdgeCollapseTime p e = .error "Angle sine too close to zero" := by
  rw [P7.calculateEdgeCollapseTime, hd, exceptBind_ok, hab, exceptBind_ok]
  dsimp only
  rw [if_pos hsin]

theorem exceptBind_split {α β : Type} (x : Except String α)
    (k : α → Except String β) (P : Except String β → Prop)
    (h1 : ∀ m, x = .error m → P (.error m))
    (h2 : ∀ a, x = .ok a → P (k a)) : P (x >>= k) := by
  cases hx : x with
  | error m => rw [exceptBind_err]; exact h1 m hx
  | ok a => rw [exceptBind_ok]; exact h2 a hx

/-- C2 amended, part (b), generalized scan: the per-edge catch block of
`computeInitialEdgeEvents` re-throws, so a degenerate (non-reflex) edge
anywhere in the scanned list makes the whole scan return an error. -/
theorem P7.edgeScan_aborts (p : Polygon) (e : Edge) (msg : String)
    (hr : Edge.hasReflexEndpoint p e = .ok false)
    (hc : P7.calculateEdgeCollapseTime p e = .error msg) :
    ∀ (l : List Edge), e ∈ l → ∀ q0 : EventQueue Ev, ∃ msg',
      l.foldlM (fun q e2 => do
          let r ← Edge.hasReflexEndpoint p e2
          if r then .ok q
          else do
            let t ← P7.calculateEdgeCollapseTime p e2
            if t ≤ 0 then .ok q
            else do
              let ev ← EdgeEvent.make p t e2
              .ok (EventQueue.add Ev.time ev q)) q0 = .error msg' := by
  intro l
  induction l with
  | nil => intro he; cases he
  | cons a rest ih =>
    intro he q0
    simp only [List.foldlM_cons]
    rcases List.mem_cons.mp he with rfl | hmem
    · refine ⟨msg, ?_⟩
      rw [hr, exceptBind_ok]
      rw [if_neg (by norm_num), hc, exceptBind_err, exceptBind_err]
    · exact exceptBind_split _ _ (fun z => ∃ msg', z = .error msg')
        (fun m _ => ⟨m, rfl⟩) (fun q1 _ => ih hmem q1)

/-- C2 amended, part (b): a degenerate non-reflex edge anywhere in the
polygon makes `computeInitialEdgeEvents` abort with an error, never
continuing with the remaining edges. -/
theorem P7.computeInitialEdgeEvents_aborts (p : Polygon) (e : Edge)
    (msg : String)
    (he : e ∈ p.edges)
    (hr : Edge.hasReflexEndpoint p e = .ok false)
    (hc : P7.calculateEdgeCollapseTime p e = .error msg) :
    ∀ q0 : EventQueue Ev, ∃ msg',
      P7.computeInitialEdgeEvents p q0 = .error msg' := by
  intro q0
  exact P7.edgeScan_aborts p e msg hr hc p.edges he q0

/-- C2 amended, part (c): the `Skeleton.ts` variant applies no sine
tolerance at all — whenever the geometric reads succeed it returns the
formula's value, however small the sines. -/
theorem Sts_calcTime_no_tolerance (p : Polygon) (e : Edge) (d : Vec)
    (a b : Vertex) (len : ℝ)
    (hd : Edge.direction p e = .ok d)
    (hab : Edge.endpoints p e = .ok (a, b))
    (hlen : Edge.length p e = .ok len) :
    Skeleton.calculateEdgeCollapseTime p e
      = .ok (len / (1 / Angle.sinBetween d a.bisector
          + 1 / Angle.sinBetween d b.bisector)) := by
  rw [Skeleton.calculateEdgeCollapseTime, hd, exceptBind_ok, hab, exceptBind_ok]
  dsimp only
  rw [hlen, exceptBind_ok]

/-- C2 counterexample: edge `⟨10, 0, 1⟩` of `degSq` has `sin θ1 = 0`,
magnitude below the `1e-10` tolerance, both endpoints non-reflex — and
`part_007`'s candidate generation returns an error for the whole scan
instead of producing no event for that edge and continuing: the claimed
silent recovery does not happen. -/
theorem c2_degenerate_sine_counterexample :
    |Angle.sinBetween ⟨0, 1⟩ ⟨0, 1⟩| < tol
    ∧ Edge.direction degSq ⟨10, 0, 1⟩ = .ok ⟨0, 1⟩
    ∧ Edge.hasReflexEndpoint degSq ⟨10, 0, 1⟩ = .ok false
    ∧ P7.computeInitialEdgeEvents degSq []
        = .error "Angle sine too close to zero" := by
  have hsin : |Angle.sinBetween ⟨0, 1⟩ ⟨0, 1⟩| < tol := by
    rw [sinBetween_parallel]
    norm_num [tol]
  have hcalc : P7.calculateEdgeCollapseTime degSq ⟨10, 0, 1⟩
      = .error "Angle sine too close to zero" :=
    P7.calcTime_degenerate_throws degSq ⟨10, 0, 1⟩ ⟨0, 1⟩ _ _
      degSq_e0_direction degSq_e0_endpoints (Or.inl hsin)
  refine ⟨hsin, degSq_e0_direction, degSq_e0_not_reflex, ?_⟩
  unfold P7.computeInitialEdgeEvents
  rw [show degSq.edges
      = (⟨10, 0, 1⟩ : Edge) :: [⟨11, 1, 2⟩, ⟨12, 2, 3⟩, ⟨13, 3, 0⟩] from rfl]
  simp only [List.foldlM_cons]
  rw [degSq_e0_not_reflex, exceptBind_ok]
  rw [if_neg (by norm_num), hcalc, exceptBind_err, exceptBind_err]

/-- C2 amended: when either sine magnitude in the collapse formula is
below the `1e-10` tolerance, `part_007`'s `calculateEdgeCollapseTime`
throws, and because the per-edge catch in `computeInitialEdgeEvents`
re-throws, the whole candidate generation aborts with an error instead
of continuing with the remaining edges.  The `Skeleton.ts` variant of
the formula performs no tolerance check at all. -/
theorem c2_degenerate_sine_amended :
    (∀ (p : Polygon) (e : Edge) (d : Vec) (a b : Vertex),
      Edge.direction p e = .ok d → Edge.endpoints p e = .ok (a, b)
      → (|Angle.sinBetween d a.bisector| < tol
          ∨ |Angle.sinBetween d b.bisector| < tol)
      → P7.calculateEdgeCollapseTime p e
          = .error "Angle sine too close to zero")
    ∧ (∀ (p : Polygon) (e : Edge) (msg : String), e ∈ p.edges
      → Edge.hasReflexEndpoint p e = .ok false
      → P7.calculateEdgeCollapseTime p e = .error msg
      → ∀ q0 : EventQueue Ev, ∃ msg',
          P7.computeInitialEdgeEvents p q0 = .error msg')
    ∧ (∀ (p : Polygon) (e : Edge) (d : Vec) (a b : Vertex) (len : ℝ),
      Edge.direction p e = .ok d → Edge.endpoints p e = .ok (a, b)
      → Edge.length p e = .ok len
      → Skeleton.calculateEdgeCollapseTime p e
          = .ok (len / (1 / Angle.sinBetween d a.bisector
              + 1 / Angle.sinBetween d b.bisector))) :=
  ⟨P7.calcTime_degenerate_throws, P7.computeInitialEdgeEvents_aborts,
   Sts_calcTime_no_tolerance⟩

theorem degSq_e0_length :
    Edge.length degSq ⟨10, 0, 1⟩ = .ok (Vec.length ⟨0, 3⟩) := by
  rw [Edge.length, degSq_e0_endpoints, exceptBind_ok]
  dsimp only
  norm_num [Vec.minus]

/-- C2 amended witness: the three parts instantiated at `degSq`'s first
edge. -/
theorem c2_degenerate_sine_amended_witness :
    P7.calculateEdgeCollapseTime degSq ⟨10, 0, 1⟩
      = .error "Angle sine too close to zero"
    ∧ (∃ msg', P7.computeInitialEdgeEvents degSq [] = .error msg')
    ∧ Skeleton.calculateEdgeCollapseTime degSq ⟨10, 0, 1⟩
      = .ok (Vec.length ⟨0, 3⟩ / (1 / Angle.sinBetween ⟨0, 1⟩ ⟨0, 1⟩
          + 1 / Angle.sinBetween ⟨0, 1⟩ ⟨1, 0⟩)) := by
  have hsin : |Angle.sinBetween ⟨0, 1⟩ ⟨0, 1⟩| < tol := by
    rw [sinBetween_parallel]
    norm_num [tol]
  have hcalc := c2_degenerate_sine_amended.1 degSq ⟨10, 0, 1⟩ ⟨0, 1⟩ _ _
    degSq_e0_direction degSq_e0_endpoints (Or.inl hsin)
  refine ⟨hcalc, ?_, ?_⟩
  · exact c2_degenerate_sine_amended.2.1 degSq ⟨10, 0, 1⟩
      "Angle sine too close to zero" (by simp [degSq]) degSq_e0_not_reflex
      hcalc []
  · exact c2_degenerate_sine_amended.2.2 degSq ⟨10, 0, 1⟩ ⟨0, 1⟩ _ _
      (Vec.length ⟨0, 3⟩) degSq_e0_direction degSq_e0_endpoints
      degSq_e0_length

/-! ## C5: split-event revalidation -/

theorem initialize_length (fresh : ℕ) (p : Polygon) :
    (( Polygon.initialize fresh p).1.1).vertices.length
      = p.vertices.length := by
  have h := congrArg List.length ( Polygon.initialize_vkeys fresh p)
  simpa using h

theorem norm43B : Vec.normalize ⟨-4, 3⟩ = .ok ⟨-4 / 5, 3 / 5⟩ := by
  rw [Vec.normalize_eval ⟨-4, 3⟩ 5 (by norm_num) (by norm_num [Vec.lengthSq])]

theorem norm43C : Vec.normalize ⟨4, -3⟩ = .ok ⟨4 / 5, -3 / 5⟩ := by
  rw [Vec.normalize_eval ⟨4, -3⟩ 5 (by norm_num) (by norm_num [Vec.lengthSq])]

theorem sqCWsplit_init_ok : ( Polygon.initialize 55 sqCWsplit).2 = none := by
  have hrelink : relink sqCWsplit.vertices
      = ⟨0, ⟨0, 0⟩, some 3, some 53, ⟨0, 0⟩⟩
        :: ⟨53, ⟨4, 0⟩, some 0, some 1, ⟨0, 0⟩⟩
        :: ⟨1, ⟨0, 3⟩, some 53, some 2, ⟨0, 0⟩⟩
        :: ⟨2, ⟨4, 3⟩, some 1, some 3, ⟨0, 0⟩⟩
        :: ⟨3, ⟨4, 0⟩, some 2, some 0, ⟨0, 0⟩⟩ :: [] := rfl
  have f0 : findVert (relink sqCWsplit.vertices) 0
      = some ⟨0, ⟨0, 0⟩, some 3, some 53, ⟨0, 0⟩⟩ := rfl
  have f53 : findVert (relink sqCWsplit.vertices) 53
      = some ⟨53, ⟨4, 0⟩, some 0, some 1, ⟨0, 0⟩⟩ := rfl
  have f1 : findVert (relink sqCWsplit.vertices) 1
      = some ⟨1, ⟨0, 3⟩, some 53, some 2, ⟨0, 0⟩⟩ := rfl
  have f2 : findVert (relink sqCWsplit.vertices) 2
      = some ⟨2, ⟨4, 3⟩, some 1, some 3, ⟨0, 0⟩⟩ := rfl
  have f3 : findVert (relink sqCWsplit.vertices) 3
      = some ⟨3, ⟨4, 0⟩, some 2, some 0, ⟨0, 0⟩⟩ := rfl
  have sA := Vec.normalize_ok ⟨2, 0⟩ (by norm_num [Vec.lengthSq])
  have sB := Vec.normalize_ok ⟨-(9 / 5), 3 / 5⟩ (by norm_num [Vec.lengthSq])
  have sC := Vec.normalize_ok ⟨9 / 5, -(3 / 5)⟩ (by norm_num [Vec.lengthSq])
  have sD := Vec.normalize_ok ⟨-1, -1⟩ (by norm_num [Vec.lengthSq])
  have sE := Vec.normalize_ok ⟨-1, 1⟩ (by norm_num [Vec.lengthSq])
  show (setBisectors (relink sqCWsplit.vertices)
      (relink sqCWsplit.vertices)).2 = none
  nth_rewrite 2 [hrelink]
  norm_num [setBisectors, bisectorFor, f0, f53, f1, f2, f3, Vec.minus,
    Vec.plus, normPP, normQP, normPN, normQN, norm43B, norm43C, sA, sB, sC,
    sD, sE]

/-- C5 counterexample: in the `part_007` pipeline, a split event at the
NON-reflex vertex 0 of the clockwise rectangle passes
`validateEventState` (which re-checks membership only) and is applied —
the topology grows to 5 vertices with no error — although the claimed
reflexivity re-check would have failed and required the event to be
dropped with the topology unchanged. -/
theorem c5_split_applied_without_rechecks :
    Vertex.isReflex sqCW.vertices ⟨0, ⟨0, 0⟩, some 3, some 1, ⟨0, 0⟩⟩
      = .ok false
    ∧ P7.validateEventState sqCW (.split 1 0 ⟨11, 1, 2⟩ ⟨4, 0⟩) = true
    ∧ (P7.handleSplitEvent ⟨[], [sqCW], [], [], [], 50⟩ 1 0 ⟨11, 1, 2⟩
        ⟨4, 0⟩).2 = none
    ∧ ((P7.handleSplitEvent ⟨[], [sqCW], [], [], [], 50⟩ 1 0 ⟨11, 1, 2⟩
        ⟨4, 0⟩).1.wavefrontPolygons.getLast?).map
          (fun p => p.vertices.length) = some 5 := by
  have hrun : P7.handleSplitEvent ⟨[], [sqCW], [], [], [], 50⟩ 1 0 ⟨11, 1, 2⟩
      ⟨4, 0⟩
      = (P7St.mk [] [( Polygon.initialize 55 sqCWsplit).1.1] []
          [⟨52, 50, 51⟩] [] ( Polygon.initialize 55 sqCWsplit).1.2, none) := by
    rw [P7.handleSplitEvent]
    have hlast : ([sqCW] : List Polygon).getLast? = some sqCW := rfl
    rw [hlast]
    dsimp only
    have hv : sqCW.hasVertexId 0 = true := rfl
    have he : sqCW.hasEdge ⟨11, 1, 2⟩ = true := rfl
    rw [if_neg (by norm_num [P7.validateEventState, hv, he])]
    have hfv : sqCW.findVertex 0
        = some ⟨0, ⟨0, 0⟩, some 3, some 1, ⟨0, 0⟩⟩ := rfl
    rw [hfv]
    dsimp only
    have hfe : List.findIdx? (fun e2 => e2.id == (11 : ℕ)) sqCW.edges
        = some 1 := rfl
    have hfv2 : List.findIdx? (fun v2 => v2.id == (0 : ℕ)) sqCW.vertices
        = some 0 := rfl
    rw [hfe, hfv2]
    dsimp only
    have hpoly : (Polygon.mk
        (List.insertIdx 1 (⟨53, ⟨4, 0⟩, none, none, ⟨0, 0⟩⟩ : Vertex)
          sqCW.vertices)
        (List.insertIdx 2 ⟨54, 0, 53⟩ sqCW.edges))
        = sqCWsplit := rfl
    simp only [Nat.reduceAdd, Vertex.make, List.nil_append,
      show ([sqCW] : List Polygon).dropLast = [] from rfl]
    rw [hpoly, initialize_pair 55 sqCWsplit sqCWsplit_init_ok]
  refine ⟨sqCW_v0_not_reflex, rfl, ?_, ?_⟩
  · rw [hrun]
  · rw [hrun]
    have hlen := initialize_length 55 sqCWsplit
    simp only [List.getLast?_singleton, Option.map_some']
    rw [hlen]
    rfl

theorem SplitEvent.process_noop (fresh : ℕ) (w : Wavefront) (vid : ℕ)
    (e : Edge) (inter : Vec)
    (h : SplitEvent.isStillValid w vid e inter = .ok false) :
    SplitEvent.process fresh w vid e inter = .ok (w, fresh) := by
  rw [SplitEvent.process, h, exceptBind_ok]
  rfl

theorem SplitEvent.isStillValid_nonreflex (w : Wavefront) (vid : ℕ)
    (e : Edge) (inter : Vec) (cur : Polygon) (v : Vertex)
    (hcur : w.getCurrentPolygon = .ok cur)
    (hv : cur.hasVertexId vid = true)
    (he : cur.hasEdge e = true)
    (hfv : cur.findVertex vid = some v)
    (hr : v.isReflex cur.vertices = .ok false) :
    SplitEvent.isStillValid w vid e inter = .ok false := by
  rw [SplitEvent.isStillValid, hcur, exceptBind_ok]
  dsimp only
  rw [hv, he, if_neg (by norm_num), hfv]
  dsimp only
  rw [hr, exceptBind_ok]
  rfl

theorem SplitEvent.isStillValid_adjacent (w : Wavefront) (vid : ℕ)
    (e : Edge) (inter : Vec) (cur : Polygon) (v : Vertex)
    (hcur : w.getCurrentPolygon = .ok cur)
    (hv : cur.hasVertexId vid = true)
    (he : cur.hasEdge e = true)
    (hfv : cur.findVertex vid = some v)
    (hr : v.isReflex cur.vertices = .ok true)
    (hadj : Edge.isAdjacent cur e vid = .ok true) :
    SplitEvent.isStillValid w vid e inter = .ok false := by
  rw [SplitEvent.isStillValid, hcur, exceptBind_ok]
  dsimp only
  rw [hv, he, if_neg (by norm_num), hfv]
  dsimp only
  rw [hr, exceptBind_ok]
  rw [if_neg (by norm_num)]
  rw [hadj, exceptBind_ok]
  rfl

/-- C5 amended: the `SplitEvent.process`/`isStillValid` path does
re-check membership, reflexivity and non-adjacency (and recomputes the
intersection) against the current topology and drops a failing event
with the wavefront unchanged; but the `part_007` pipeline's
`validateEventState` re-checks only membership, so a stale split event
passing membership is applied there without those checks (see the
counterexample). -/
theorem c5_split_revalidation :
    (∀ (fresh : ℕ) (w : Wavefront) (vid : ℕ) (e : Edge) (inter : Vec),
      SplitEvent.isStillValid w vid e inter = .ok false
      → SplitEvent.process fresh w vid e inter = .ok (w, fresh))
    ∧ (∀ (w : Wavefront) (vid : ℕ) (e : Edge) (inter : Vec) (cur : Polygon)
        (v : Vertex),
      w.getCurrentPolygon = .ok cur → cur.hasVertexId vid = true
      → cur.hasEdge e = true → cur.findVertex vid = some v
      → v.isReflex cur.vertices = .ok false
      → SplitEvent.isStillValid w vid e inter = .ok false)
    ∧ (∀ (w : Wavefront) (vid : ℕ) (e : Edge) (inter : Vec) (cur : Polygon)
        (v : Vertex),
      w.getCurrentPolygon = .ok cur → cur.hasVertexId vid = true
      → cur.hasEdge e = true → cur.findVertex vid = some v
      → v.isReflex cur.vertices = .ok true
      → Edge.isAdjacent cur e vid = .ok true
      → SplitEvent.isStillValid w vid e inter = .ok false)
    ∧ (∀ (cur : Polygon) (t : ℝ) (vid : ℕ) (e : Edge) (inter : Vec),
      P7.validateEventState cur (.split t vid e inter)
        = (cur.hasVertexId vid && cur.hasEdge e)) :=
  ⟨SplitEvent.process_noop, SplitEvent.isStillValid_nonreflex,
   SplitEvent.isStillValid_adjacent, fun _ _ _ _ _ => rfl⟩

/-- C5 amended witness: a missing-vertex event is dropped with no
effect; the non-reflex re-check and the adjacency re-check fire on the
rectangle fixtures. -/
theorem c5_split_revalidation_witness :
    SplitEvent.process 77 ⟨[sqCW], [0]⟩ 99 ⟨11, 1, 2⟩ ⟨0, 0⟩
      = .ok (⟨[sqCW], [0]⟩, 77)
    ∧ SplitEvent.isStillValid ⟨[sqCW], [0]⟩ 0 ⟨11, 1, 2⟩ ⟨0, 0⟩ = .ok false
    ∧ SplitEvent.isStillValid ⟨[sqCCW], [0]⟩ 0 ⟨11, 1, 2⟩ ⟨0, 0⟩
      = .ok false := by
  refine ⟨?_, ?_, ?_⟩
  · exact c5_split_revalidation.1 77 ⟨[sqCW], [0]⟩ 99 ⟨11, 1, 2⟩ ⟨0, 0⟩ rfl
  · exact c5_split_revalidation.2.1 ⟨[sqCW], [0]⟩ 0 ⟨11, 1, 2⟩ ⟨0, 0⟩ sqCW
      ⟨0, ⟨0, 0⟩, some 3, some 1, ⟨0, 0⟩⟩ rfl rfl rfl rfl sqCW_v0_not_reflex
  · exact c5_split_revalidation.2.2.1 ⟨[sqCCW], [0]⟩ 0 ⟨11, 1, 2⟩ ⟨0, 0⟩
      sqCCW ⟨0, ⟨0, 0⟩, some 3, some 1, ⟨0, 0⟩⟩ rfl rfl rfl rfl
      sqCCW_v0_reflex rfl

theorem mapIdx_forall {α β : Type} (P : β → Prop) :
    ∀ (l : List α) (f : ℕ → α → β),
      (∀ i a, a ∈ l → P (f i a)) → ∀ b ∈ List.mapIdx f l, P b := by
  intro l
  induction l with
  | nil =>
    intro f h b hb
    simp at hb
  | cons x l ih =>
    intro f h b hb
    rw [List.mapIdx_cons] at hb
    rcases List.mem_cons.mp hb with rfl | hb2
    · exact h 0 x (List.mem_cons_self x l)
    · exact ih (fun i a => f (i + 1) a)
        (fun i a ha => h (i + 1) a (List.mem_cons_of_mem x ha)) b hb2

theorem mkEdges_idsGe (n fresh : ℕ) (vs : List Vertex)
    (hn : n ≤ fresh) (hv : ∀ v ∈ vs, n ≤ v.id) :
    ∀ e ∈ mkEdges fresh vs, n ≤ e.id ∧ n ≤ e.v1 ∧ n ≤ e.v2 := by
  intro e he
  unfold mkEdges at he
  refine mapIdx_forall (fun e => n ≤ e.id ∧ n ≤ e.v1 ∧ n ≤ e.v2) _ _
    ?_ e he
  intro i ab hab
  obtain ⟨h1, h2⟩ := List.of_mem_zip hab
  exact ⟨le_trans hn (Nat.le_add_right _ _), hv _ h1,
    hv _ (List.mem_rotate.mp h2)⟩

theorem ids_from_vkeys {l l2 : List Vertex}
    (h : l.map vkey = l2.map vkey) :
    ∀ v' ∈ l, ∃ v ∈ l2, v'.id = v.id := by
  intro v' hv'
  have hmap : l.map (fun v => v.id) = l2.map (fun v => v.id) := by
    have h2 := congrArg (List.map Prod.fst) h
    simpa [List.map_map, vkey, Function.comp] using h2
  have hmem : v'.id ∈ l.map (fun v => v.id) :=
    List.mem_map_of_mem _ hv'
  rw [hmap] at hmem
  obtain ⟨v, hv, hid⟩ := List.mem_map.mp hmem
  exact ⟨v, hv, hid.symm⟩

theorem Polygon.initialize_IdsGe (n fresh : ℕ) (p : Polygon)
    (hn : n ≤ fresh) (hv : ∀ v ∈ p.vertices, n ≤ v.id) :
    Polygon.IdsGe n (( Polygon.initialize fresh p).1.1)
    ∧ fresh ≤ ( Polygon.initialize fresh p).1.2 := by
  refine ⟨⟨?_, ?_⟩, ?_⟩
  · intro v' hv'
    obtain ⟨v, hvmem, hid⟩ :=
      ids_from_vkeys ( Polygon.initialize_vkeys fresh p) v' hv'
    rw [hid]
    exact hv v hvmem
  · intro e he
    have hedges : (( Polygon.initialize fresh p).1.1).edges
        = mkEdges fresh (relink p.vertices) := rfl
    rw [hedges] at he
    refine mkEdges_idsGe n fresh (relink p.vertices) hn ?_ e he
    intro v hvm
    obtain ⟨w, hw, hid⟩ := ids_from_vkeys (relink_vkeys p.vertices) v hvm
    rw [hid]
    exact hv w hw
  · exact Nat.le_add_right _ _

theorem Polygon.build_IdsGe (n fresh : ℕ) (pts : List Vec) (q : Polygon)
    (f' : ℕ) (hn : n ≤ fresh)
    (h : Polygon.build fresh pts = .ok (q, f')) :
    Polygon.IdsGe n q ∧ fresh ≤ f' := by
  unfold Polygon.build at h
  by_cases hlen : pts.length < 3
  · rw [if_pos hlen] at h
    cases h
  · rw [if_neg hlen] at h
    dsimp only at h
    have hv0 : ∀ v ∈ pts.mapIdx
        (fun i pt => (⟨fresh + i, pt, none, none, ⟨0, 0⟩⟩ : Vertex)),
        fresh ≤ v.id := by
      refine mapIdx_forall (fun v : Vertex => fresh ≤ v.id) pts _ ?_
      intro i a _
      exact Nat.le_add_right _ _
    cases hsnd : ( Polygon.initialize (fresh + pts.length)
        { vertices := pts.mapIdx
            (fun i pt => (⟨fresh + i, pt, none, none, ⟨0, 0⟩⟩ : Vertex)),
          edges := [] }).2 with
    | some e =>
      rw [initialize_pair_err _ _ _ hsnd] at h
      cases h
    | none =>
      rw [initialize_pair _ _ hsnd] at h
      rw [Except.ok.injEq, Prod.mk.injEq] at h
      obtain ⟨hq, hf⟩ := h
      have hig := Polygon.initialize_IdsGe n (fresh + pts.length)
        { vertices := pts.mapIdx
            (fun i pt => (⟨fresh + i, pt, none, none, ⟨0, 0⟩⟩ : Vertex)),
          edges := [] }
        (le_trans hn (Nat.le_add_right _ _))
        (fun v hvm => le_trans hn (hv0 v hvm))
      refine ⟨hq ▸ hig.1, hf ▸ le_trans (Nat.le_add_right _ _) hig.2⟩

theorem Polygon.clone_IdsGe (n fresh : ℕ) (p q : Polygon) (f' : ℕ)
    (hn : n ≤ fresh) (h : Polygon.clone fresh p = .ok (q, f')) :
    Polygon.IdsGe n q ∧ fresh ≤ f' :=
  Polygon.build_IdsGe n fresh _ q f' hn h

/-! ## C4: the observability surface -/

/-- The edge-clone fold shared by `getAngleBisectors()` and
`getSkeletonEdges()` (`part_007`): the copies reproduce, in order, the
endpoint references of the originals — `Edge.clone` is shallow, so the
`v1`/`v2` fields of the copies are the very vertex objects of the
engine. -/
theorem cloneFold_shape :
    ∀ (l : List Edge) (acc : List Edge × ℕ),
      ((l.foldl
          (fun (acc : List Edge × ℕ) e =>
            let c := Edge.clone acc.2 e
            (acc.1 ++ [c.1], c.2)) acc).1).map (fun e => (e.v1, e.v2))
        = acc.1.map (fun e => (e.v1, e.v2))
          ++ l.map (fun e => (e.v1, e.v2)) := by
  intro l
  induction l with
  | nil =>
    intro acc
    simp
  | cons x l ih =>
    intro acc
    rw [List.foldl_cons, ih]
    simp [Edge.clone]

/-- Every edge object the clone fold emits carries an id at or above the
counter it started from: the copies are fresh objects, distinct from
every engine object allocated before. -/
theorem cloneFold_fresh (n : ℕ) :
    ∀ (l : List Edge) (acc : List Edge × ℕ),
      (∀ e ∈ acc.1, n ≤ e.id) → n ≤ acc.2 →
      ∀ e ∈ (l.foldl
          (fun (acc : List Edge × ℕ) e =>
            let c := Edge.clone acc.2 e
            (acc.1 ++ [c.1], c.2)) acc).1, n ≤ e.id := by
  intro l
  induction l with
  | nil =>
    intro acc h1 _ e he
    exact h1 e he
  | cons x l ih =>
    intro acc h1 h2
    rw [List.foldl_cons]
    refine ih _ ?_ ?_
    · intro e he
      rcases List.mem_append.mp he with he1 | he2
      · exact h1 e he1
      · rw [List.mem_singleton.mp he2]
        exact h2
    · exact le_trans h2 (Nat.le_succ _)

/-- The polygon-clone fold of `getWavefrontPolygons()` (`part_007`): on
success every returned polygon is built purely from allocations at or
after the counter the fold started from — a genuinely deep copy sharing
no object with an engine whose ids lie below that counter. -/
theorem wavefrontFold_IdsGe (n : ℕ) :
    ∀ (l : List Polygon) (acc : List Polygon × ℕ),
      (∀ p ∈ acc.1, Polygon.IdsGe n p) → n ≤ acc.2 →
      ∀ res, (l.foldlM
          (fun (acc : List Polygon × ℕ) p => do
            let c ← Polygon.clone acc.2 p
            .ok (acc.1 ++ [c.1], c.2)) acc) = .ok res →
        ∀ p ∈ res.1, Polygon.IdsGe n p := by
  intro l
  induction l with
  | nil =>
    intro acc h1 _ res hres
    rw [List.foldlM_nil] at hres
    cases hres
    exact h1
  | cons x l ih =>
    intro acc h1 h2 res hres
    rw [List.foldlM_cons] at hres
    cases hcl : Polygon.clone acc.2 x with
    | error e =>
      rw [hcl] at hres
      rw [exceptBind_err] at hres
      cases hres
    | ok c =>
      rw [hcl, exceptBind_ok, exceptBind_ok] at hres
      have hc := Polygon.clone_IdsGe n acc.2 x c.1 c.2 h2
        (by rw [hcl])
      refine ih (acc.1 ++ [c.1], c.2) ?_ (le_trans h2 hc.2) res hres
      intro p hp
      rcases List.mem_append.mp hp with hp1 | hp2
      · exact h1 p hp1
      · rw [List.mem_singleton.mp hp2]
        exact hc.1

/-- **C4** (counterexample).  The observability surface does NOT always
return an independent copy.  `Skeleton.getEdges` (`Skeleton.ts`, lines
141-143) returns the live `edges` array itself: the result is the
state's own list — here the engine's edge object with id 7 — with no
fresh allocation (the counter 9 is untouched), so a caller holds a
reference through which the engine's live state is mutable.
`getSkeletonEdges()` (`part_007`) does allocate a fresh `Edge` (id 100
here), but `Edge.clone` is shallow: the copy's `v1`/`v2` endpoint
references are still the engine's own vertex objects (ids 1 and 2).
Only the no-mutation-on-read half of the claim holds (see the amended
theorem). -/
theorem c4_getters_alias_live_state :
    (Skeleton.getEdges ⟨⟨[], []⟩, [], [⟨7, 1, 2⟩], 9⟩).1
      = (⟨⟨[], []⟩, [], [⟨7, 1, 2⟩], 9⟩ : SkeletonSt).edges
    ∧ (Skeleton.getEdges ⟨⟨[], []⟩, [], [⟨7, 1, 2⟩], 9⟩).1 = [⟨7, 1, 2⟩]
    ∧ P7.getSkeletonEdges 100 ⟨[], [], [], [⟨7, 1, 2⟩], [], 9⟩
      = ([⟨100, 1, 2⟩], 101) :=
  ⟨rfl, rfl, rfl⟩

/-- **C4** (amended).  What the code does guarantee: (1) `getEdges`
reads without mutating — it returns the live list and the state exactly
as they are; (2) querying `getSkeletonEdges()` twice with no intervening
computation returns structurally equal edge lists (identical endpoint
references, whatever the allocation counters), and every returned edge
is a freshly allocated object; (3) `getDebugLog()` is a pure read of the
log; (4) `getWavefrontPolygons()` alone is a deep copy: every polygon it
returns is built wholly from fresh allocations. -/
theorem c4_observability_amended :
    (∀ s : SkeletonSt, Skeleton.getEdges s = (s.edges, s))
    ∧ (∀ (f1 f2 : ℕ) (s7 : P7St),
        (P7.getSkeletonEdges f1 s7).1.map (fun e => (e.v1, e.v2))
          = (P7.getSkeletonEdges f2 s7).1.map (fun e => (e.v1, e.v2))
        ∧ ∀ e ∈ (P7.getSkeletonEdges f1 s7).1, f1 ≤ e.id)
    ∧ (∀ s7 : P7St, P7.getDebugLog s7 = s7.debugLog)
    ∧ (∀ (fresh : ℕ) (s7 : P7St) (res : List Polygon × ℕ),
        P7.getWavefrontPolygons fresh s7 = .ok res →
        ∀ p ∈ res.1, Polygon.IdsGe fresh p) := by
  refine ⟨fun s => rfl, fun f1 f2 s7 => ⟨?_, ?_⟩, fun s7 => rfl, ?_⟩
  · show ((s7.skeletonEdges.foldl _ ([], f1)).1).map _
      = ((s7.skeletonEdges.foldl _ ([], f2)).1).map _
    rw [cloneFold_shape, cloneFold_shape]
  · intro e he
    refine cloneFold_fresh f1 s7.skeletonEdges ([], f1) ?_ (le_refl f1) e he
    intro e2 he2
    cases he2
  · intro fresh s7 res h
    refine wavefrontFold_IdsGe fresh s7.wavefrontPolygons ([], fresh)
      ?_ (le_refl fresh) res h
    intro p hp
    cases hp

/-- Witness for the amended C4 theorem: each part applied at a concrete
state, the success hypothesis of the `getWavefrontPolygons()` part
discharged by computation. -/
theorem c4_observability_amended_witness :
    Skeleton.getEdges ⟨⟨[], []⟩, [], [⟨3, 1, 2⟩], 9⟩
      = ([⟨3, 1, 2⟩], ⟨⟨[], []⟩, [], [⟨3, 1, 2⟩], 9⟩)
    ∧ (P7.getSkeletonEdges 100 ⟨[], [], [], [⟨3, 1, 2⟩], [], 9⟩).1.map
        (fun e => (e.v1, e.v2))
      = (P7.getSkeletonEdges 200 ⟨[], [], [], [⟨3, 1, 2⟩], [], 9⟩).1.map
        (fun e => (e.v1, e.v2))
    ∧ 100 ≤ (Edge.mk 100 1 2).id
    ∧ (P7.getWavefrontPolygons 50 ⟨[], [], [], [], [], 20⟩ = .ok ([], 50)
      ∧ ∀ p ∈ ([] : List Polygon), Polygon.IdsGe 50 p) := by
  refine ⟨c4_observability_amended.1 _,
    (c4_observability_amended.2.1 100 200 _).1, ?_, rfl, ?_⟩
  · exact (c4_observability_amended.2.1 100 200
      ⟨[], [], [], [⟨3, 1, 2⟩], [], 9⟩).2
      ⟨100, 1, 2⟩ (List.mem_singleton.mpr rfl)
  · intro p hp
    exact c4_observability_amended.2.2.2 50 ⟨[], [], [], [], [], 20⟩
      ([], 50) rfl p hp

/-! ## C10: isolation of the caller's polygon -/

theorem mem_spliceRemove {α : Type} (l : List α) (i k : ℕ) :
    ∀ a ∈ spliceRemove l i k, a ∈ l := by
  intro a ha
  rcases List.mem_append.mp ha with h | h
  · exact List.mem_of_mem_take h
  · exact List.mem_of_mem_drop h

theorem mem_insertIdx_or {α : Type} (b : α) :
    ∀ (n : ℕ) (l : List α), ∀ a ∈ List.insertIdx n b l, a = b ∨ a ∈ l := by
  intro n
  induction n with
  | zero =>
    intro l a ha
    have ha2 : a ∈ b :: l := ha
    exact List.mem_cons.mp ha2
  | succ n ih =>
    intro l a ha
    cases l with
    | nil =>
      have ha2 : a ∈ ([] : List α) := ha
      cases ha2
    | cons x l =>
      have ha2 : a ∈ x :: List.insertIdx n b l := ha
      rcases List.mem_cons.mp ha2 with h | h
      · exact Or.inr (h ▸ List.mem_cons_self x l)
      · rcases ih l a h with h2 | h2
        · exact Or.inl h2
        · exact Or.inr (List.mem_cons_of_mem x h2)

theorem Wavefront.handleEdgeEvent_IdsGe (n fresh : ℕ) (w : Wavefront)
    (e : Edge) (w2 : Wavefront) (f2 : ℕ) (hn : n ≤ fresh)
    (hw : ∀ p ∈ w.polygons, Polygon.IdsGe n p)
    (h : Wavefront.handleEdgeEvent fresh w e = .ok (w2, f2)) :
    (∀ p ∈ w2.polygons, Polygon.IdsGe n p) ∧ fresh ≤ f2 := by
  rw [Wavefront.handleEdgeEvent] at h
  cases hlast : w.polygons.getLast? with
  | none =>
    have hge : w.getCurrentPolygon = .error "No polygon states exist" := by
      rw [Wavefront.getCurrentPolygon, hlast]
    rw [hge, exceptBind_err] at h
    cases h
  | some cur =>
    have hgc : w.getCurrentPolygon = .ok cur := by
      rw [Wavefront.getCurrentPolygon, hlast]
    rw [hgc, exceptBind_ok] at h
    have hcur : Polygon.IdsGe n cur := hw cur (List.mem_of_mem_getLast? hlast)
    cases hvi : List.findIdx? (fun v => v.id == e.v1) cur.vertices with
    | none =>
      rw [hvi] at h
      cases hei : List.findIdx? (fun e2 => e2.id == e.id) cur.edges with
      | none => rw [hei] at h; cases h
      | some ei => rw [hei] at h; cases h
    | some vi =>
      rw [hvi] at h
      cases hei : List.findIdx? (fun e2 => e2.id == e.id) cur.edges with
      | none => rw [hei] at h; cases h
      | some ei =>
        rw [hei] at h
        dsimp only at h
        cases hsnd : ( Polygon.initialize fresh
            { vertices := spliceRemove cur.vertices vi 2,
              edges := spliceRemove cur.edges ei 1 }).2 with
        | some msg =>
          rw [initialize_pair_err _ _ _ hsnd] at h
          cases h
        | none =>
          rw [initialize_pair _ _ hsnd] at h
          rw [Except.ok.injEq, Prod.mk.injEq] at h
          obtain ⟨hw2, hf2⟩ := h
          have hig := Polygon.initialize_IdsGe n fresh
            { vertices := spliceRemove cur.vertices vi 2,
              edges := spliceRemove cur.edges ei 1 } hn
            (fun v hvm => hcur.1 v (mem_spliceRemove cur.vertices vi 2 v hvm))
          constructor
          · intro p hp
            rw [← hw2] at hp
            rcases List.mem_append.mp hp with h1 | h2
            · exact hw p (List.dropLast_subset _ h1)
            · rw [List.mem_singleton.mp h2]
              exact hig.1
          · rw [← hf2]
            exact hig.2

theorem Wavefront.handleSplitEvent_IdsGe (n fresh : ℕ) (w : Wavefront)
    (vid : ℕ) (e : Edge) (inter : Vec) (w2 : Wavefront) (f2 : ℕ)
    (hn : n ≤ fresh)
    (hw : ∀ p ∈ w.polygons, Polygon.IdsGe n p)
    (h : Wavefront.handleSplitEvent fresh w vid e inter = .ok (w2, f2)) :
    (∀ p ∈ w2.polygons, Polygon.IdsGe n p) ∧ fresh ≤ f2 := by
  rw [Wavefront.handleSplitEvent] at h
  cases hlast : w.polygons.getLast? with
  | none =>
    have hge : w.getCurrentPolygon = .error "No polygon states exist" := by
      rw [Wavefront.getCurrentPolygon, hlast]
    rw [hge, exceptBind_err] at h
    cases h
  | some cur =>
    have hgc : w.getCurrentPolygon = .ok cur := by
      rw [Wavefront.getCurrentPolygon, hlast]
    rw [hgc, exceptBind_ok] at h
    have hcur : Polygon.IdsGe n cur := hw cur (List.mem_of_mem_getLast? hlast)
    cases hei : List.findIdx? (fun e2 => e2.id == e.id) cur.edges with
    | none =>
      rw [hei] at h
      cases hvi : List.findIdx? (fun v => v.id == vid) cur.vertices with
      | none => rw [hvi] at h; cases h
      | some vi => rw [hvi] at h; cases h
    | some ei =>
      rw [hei] at h
      cases hvi : List.findIdx? (fun v => v.id == vid) cur.vertices with
      | none => rw [hvi] at h; cases h
      | some vi =>
        rw [hvi] at h
        dsimp only at h
        cases hsnd : ( Polygon.initialize (fresh + 2)
            { vertices := cur.vertices.insertIdx (vi + 1)
                (Vertex.make fresh inter),
              edges := cur.edges.insertIdx (ei + 1)
                ⟨fresh + 1, vid, (Vertex.make fresh inter).id⟩ }).2 with
        | some msg =>
          rw [initialize_pair_err _ _ _ hsnd] at h
          cases h
        | none =>
          rw [initialize_pair _ _ hsnd] at h
          rw [Except.ok.injEq, Prod.mk.injEq] at h
          obtain ⟨hw2, hf2⟩ := h
          have hig := Polygon.initialize_IdsGe n (fresh + 2)
            { vertices := cur.vertices.insertIdx (vi + 1)
                (Vertex.make fresh inter),
              edges := cur.edges.insertIdx (ei + 1)
                ⟨fresh + 1, vid, (Vertex.make fresh inter).id⟩ }
            (le_trans hn (Nat.le_add_right _ _)) ?hv
          case hv =>
            intro v hvm
            rcases mem_insertIdx_or (Vertex.make fresh inter) (vi + 1)
              cur.vertices v hvm with h1 | h2
            · rw [h1]
              exact hn
            · exact hcur.1 v h2
          constructor
          · intro p hp
            rw [← hw2] at hp
            rcases List.mem_append.mp hp with h1 | h2
            · exact hw p (List.dropLast_subset _ h1)
            · rw [List.mem_singleton.mp h2]
              exact hig.1
          · rw [← hf2]
            exact le_trans (Nat.le_add_right _ _) hig.2

theorem EdgeEvent.processEdge_IdsGe (n fresh : ℕ) (w : Wavefront) (e : Edge)
    (w2 : Wavefront) (f2 : ℕ) (hn : n ≤ fresh)
    (hw : ∀ p ∈ w.polygons, Polygon.IdsGe n p)
    (h : EdgeEvent.process fresh w e = .ok (w2, f2)) :
    (∀ p ∈ w2.polygons, Polygon.IdsGe n p) ∧ fresh ≤ f2 := by
  rw [EdgeEvent.process] at h
  cases hv : EdgeEvent.isStillValid w e with
  | error msg =>
    rw [hv, exceptBind_err] at h
    cases h
  | ok valid =>
    rw [hv, exceptBind_ok] at h
    cases valid with
    | false =>
      have he : (Except.ok (w, fresh) : Except String (Wavefront × ℕ))
          = .ok (w2, f2) := h
      rw [Except.ok.injEq, Prod.mk.injEq] at he
      obtain ⟨hA, hB⟩ := he
      rw [← hA, ← hB]
      exact ⟨hw, le_refl fresh⟩
    | true =>
      have h2 : Wavefront.handleEdgeEvent fresh w e = .ok (w2, f2) := h
      exact Wavefront.handleEdgeEvent_IdsGe n fresh w e w2 f2 hn hw h2

theorem SplitEvent.processSplit_IdsGe (n fresh : ℕ) (w : Wavefront) (vid : ℕ)
    (e : Edge) (inter : Vec) (w2 : Wavefront) (f2 : ℕ) (hn : n ≤ fresh)
    (hw : ∀ p ∈ w.polygons, Polygon.IdsGe n p)
    (h : SplitEvent.process fresh w vid e inter = .ok (w2, f2)) :
    (∀ p ∈ w2.polygons, Polygon.IdsGe n p) ∧ fresh ≤ f2 := by
  rw [SplitEvent.process] at h
  cases hv : SplitEvent.isStillValid w vid e inter with
  | error msg =>
    rw [hv, exceptBind_err] at h
    cases h
  | ok valid =>
    rw [hv, exceptBind_ok] at h
    cases valid with
    | false =>
      have he : (Except.ok (w, fresh) : Except String (Wavefront × ℕ))
          = .ok (w2, f2) := h
      rw [Except.ok.injEq, Prod.mk.injEq] at he
      obtain ⟨hA, hB⟩ := he
      rw [← hA, ← hB]
      exact ⟨hw, le_refl fresh⟩
    | true =>
      have h2 : Wavefront.handleSplitEvent fresh w vid e inter
          = .ok (w2, f2) := h
      exact Wavefront.handleSplitEvent_IdsGe n fresh w vid e inter w2 f2
        hn hw h2

theorem Ev.processDispatch_IdsGe (n fresh : ℕ) (w : Wavefront) (ev : Ev)
    (w2 : Wavefront) (f2 : ℕ) (hn : n ≤ fresh)
    (hw : ∀ p ∈ w.polygons, Polygon.IdsGe n p)
    (h : Ev.process fresh w ev = .ok (w2, f2)) :
    (∀ p ∈ w2.polygons, Polygon.IdsGe n p) ∧ fresh ≤ f2 := by
  cases ev with
  | edge t e =>
    exact EdgeEvent.processEdge_IdsGe n fresh w e w2 f2 hn hw h
  | split t vid e inter =>
    exact SplitEvent.processSplit_IdsGe n fresh w vid e inter w2 f2 hn hw h

theorem Skeleton.updateEvents_frame (s s3 : SkeletonSt)
    (h : Skeleton.updateEvents s = .ok s3) :
    s3.wavefront = s.wavefront ∧ s3.fresh = s.fresh := by
  rw [Skeleton.updateEvents] at h
  cases hc : s.wavefront.getCurrentPolygon with
  | error m =>
    rw [hc, exceptBind_err] at h
    cases h
  | ok cur =>
    rw [hc, exceptBind_ok] at h
    cases hq : Skeleton.initializeEvents cur [] with
    | error m =>
      rw [hq, exceptBind_err] at h
      cases h
    | ok q =>
      rw [hq, exceptBind_ok] at h
      have he : (Except.ok { s with queue := q } : Except String SkeletonSt)
          = .ok s3 := h
      injection he with he2
      rw [← he2]
      exact ⟨rfl, rfl⟩

theorem Skeleton.compute_IdsGe (n : ℕ) :
    ∀ (fuel : ℕ) (s s' : SkeletonSt),
      (∀ p ∈ s.wavefront.polygons, Polygon.IdsGe n p) → n ≤ s.fresh →
      Skeleton.compute fuel s = .ok s' →
      (∀ p ∈ s'.wavefront.polygons, Polygon.IdsGe n p) ∧ n ≤ s'.fresh := by
  intro fuel
  induction fuel with
  | zero =>
    intro s s' h1 h2 h
    have he : (Except.ok s : Except String SkeletonSt) = .ok s' := h
    injection he with he2
    rw [← he2]
    exact ⟨h1, h2⟩
  | succ fuel ih =>
    intro s s' h1 h2 h
    rw [Skeleton.compute] at h
    cases hq : s.queue with
    | nil =>
      rw [hq] at h
      have he : (Except.ok s : Except String SkeletonSt) = .ok s' := h
      injection he with he2
      rw [← he2]
      exact ⟨h1, h2⟩
    | cons ev rest =>
      rw [hq] at h
      have hpoll : EventQueue.poll (ev :: rest) = (some ev, rest) := rfl
      rw [hpoll] at h
      dsimp only at h
      cases hproc : Ev.process s.fresh s.wavefront ev with
      | error msg =>
        rw [hproc, exceptBind_err] at h
        cases h
      | ok wf2 =>
        rw [hproc, exceptBind_ok] at h
        cases hval : Wavefront.validateState wf2.1 with
        | error m =>
          rw [hval, exceptBind_err] at h
          cases h
        | ok valid =>
          rw [hval, exceptBind_ok] at h
          cases valid with
          | false =>
            have he : (Except.error
                "Invalid wavefront state after event processing"
                : Except String SkeletonSt) = .ok s' := h
            cases he
          | true =>
            have h4 : (do
                let s3 ← Skeleton.updateEvents
                  { s with wavefront := wf2.1, queue := rest,
                           fresh := wf2.2 }
                Skeleton.compute fuel s3) = .ok s' := h
            cases hup : Skeleton.updateEvents
                { s with wavefront := wf2.1, queue := rest,
                         fresh := wf2.2 } with
            | error m =>
              rw [hup, exceptBind_err] at h4
              cases h4
            | ok s3 =>
              rw [hup, exceptBind_ok] at h4
              have hfr := Skeleton.updateEvents_frame _ _ hup
              have hEv := Ev.processDispatch_IdsGe n s.fresh s.wavefront ev
                wf2.1 wf2.2 h2 h1 (by rw [hproc])
              refine ih s3 s' ?_ ?_ h4
              · intro p hp
                rw [hfr.1] at hp
                exact hEv.1 p hp
              · rw [hfr.2]
                exact le_trans h2 hEv.2

theorem Wavefront.make_ok (fresh : ℕ) (p : Polygon) (wf : Wavefront)
    (f' : ℕ) (h : Wavefront.make fresh p = .ok (wf, f')) :
    ∃ c, Polygon.clone fresh p = .ok (c, f')
      ∧ wf = { polygons := [c], times := [0] } := by
  rw [Wavefront.make] at h
  cases hs : p.isSimple with
  | false =>
    rw [hs] at h
    have he : (Except.error
        "Initial polygon must be simple (no self-intersections)"
        : Except String (Wavefront × ℕ)) = .ok (wf, f') := h
    cases he
  | true =>
    rw [hs] at h
    cases hcl : Polygon.clone fresh p with
    | error m =>
      rw [hcl, exceptBind_err] at h
      cases h
    | ok cf =>
      rw [hcl, exceptBind_ok] at h
      have he : (Except.ok ({ polygons := [cf.1], times := [0] }, cf.2)
          : Except String (Wavefront × ℕ)) = .ok (wf, f') := h
      rw [Except.ok.injEq, Prod.mk.injEq] at he
      obtain ⟨hwf, hf⟩ := he
      refine ⟨cf.1, ?_, hwf.symm⟩
      rw [← hf]

/-- **C10**.  The engine never touches the caller's polygon.  (1) The
`Wavefront` constructor stores exactly `original.clone()` as its single
time-0 snapshot.  (2) A clone is built wholly from allocations at or
after the counter it is given: it shares no object (no vertex, no edge)
with a caller whose objects were allocated earlier.  (3) The
`Skeleton.ts` constructor therefore starts with every wavefront polygon
in the fresh id region, and (4) `compute` keeps every wavefront polygon
there for its whole run, whatever events it processes: every topology
mutation the source performs happens on objects the engine allocated
itself, so after the entire computation the input polygon's vertices,
positions, links, bisectors and edges are untouched.  (5) The
`part_007` constructor likewise snapshots exactly the clone. -/
theorem c10_input_polygon_isolation :
    (∀ (fresh : ℕ) (p : Polygon),
        Wavefront.make fresh p
          = if !p.isSimple
            then .error "Initial polygon must be simple (no self-intersections)"
            else (Polygon.clone fresh p).map
              (fun cf => ({ polygons := [cf.1], times := [0] }, cf.2)))
    ∧ (∀ (n fresh : ℕ) (p q : Polygon) (f' : ℕ), n ≤ fresh →
        Polygon.clone fresh p = .ok (q, f') → Polygon.IdsGe n q ∧ fresh ≤ f')
    ∧ (∀ (fresh : ℕ) (p : Polygon) (s : SkeletonSt),
        Skeleton.make fresh p = .ok s →
        (∀ q ∈ s.wavefront.polygons, Polygon.IdsGe fresh q) ∧ fresh ≤ s.fresh)
    ∧ (∀ (n fuel : ℕ) (s s' : SkeletonSt),
        (∀ q ∈ s.wavefront.polygons, Polygon.IdsGe n q) → n ≤ s.fresh →
        Skeleton.compute fuel s = .ok s' →
        (∀ q ∈ s'.wavefront.polygons, Polygon.IdsGe n q) ∧ n ≤ s'.fresh)
    ∧ (∀ (fresh : ℕ) (p : Polygon) (s7 : P7St),
        P7.build fresh p = .ok s7 →
        ∃ cf, Polygon.clone fresh p = .ok cf
          ∧ s7.wavefrontPolygons = [cf.1] ∧ Polygon.IdsGe fresh cf.1) := by
  refine ⟨?_, ?_, ?_, ?_, ?_⟩
  · intro fresh p
    rw [Wavefront.make]
    cases hs : p.isSimple with
    | false =>
      rfl
    | true =>
      cases hcl : Polygon.clone fresh p with
      | error m => rfl
      | ok cf => rfl
  · intro n fresh p q f' hn h
    exact Polygon.clone_IdsGe n fresh p q f' hn h
  · intro fresh p s h
    rw [Skeleton.make] at h
    cases hs : p.isSimple with
    | false =>
      rw [hs] at h
      have he : (Except.error
          "Initial polygon must be simple (no self-intersections)"
          : Except String SkeletonSt) = .ok s := h
      cases he
    | true =>
      rw [hs] at h
      cases hwf : Wavefront.make fresh p with
      | error m =>
        rw [hwf, exceptBind_err] at h
        cases h
      | ok wfp =>
        rw [hwf, exceptBind_ok] at h
        obtain ⟨c, hcl, hwfEq⟩ := Wavefront.make_ok fresh p wfp.1 wfp.2
          (by rw [hwf])
        have hci := Polygon.clone_IdsGe fresh fresh p c wfp.2
          (le_refl fresh) hcl
        have hcur : wfp.1.getCurrentPolygon = .ok c := by
          rw [hwfEq]
          rfl
        rw [hcur, exceptBind_ok] at h
        cases hq : Skeleton.initializeEvents c [] with
        | error m =>
          rw [hq, exceptBind_err] at h
          cases h
        | ok qv =>
          rw [hq, exceptBind_ok] at h
          have he : (Except.ok
              { wavefront := wfp.1, queue := qv, edges := [],
                fresh := wfp.2 } : Except String SkeletonSt) = .ok s := h
          injection he with he2
          rw [← he2]
          constructor
          · intro q2 hq2
            rw [hwfEq] at hq2
            rw [List.mem_singleton.mp hq2]
            exact hci.1
          · exact hci.2
  · intro n fuel s s' h1 h2 h
    exact Skeleton.compute_IdsGe n fuel s s' h1 h2 h
  · intro fresh p s7 h
    rw [P7.build] at h
    by_cases hlen : p.vertices.length < 3
    · rw [if_pos hlen] at h
      cases h
    · rw [if_neg hlen] at h
      cases hs : p.isSimple with
      | false =>
        rw [hs] at h
        have he : (Except.error
            "Invalid polygon: contains self-intersections"
            : Except String P7St) = .ok s7 := h
        cases he
      | true =>
        rw [hs] at h
        cases hall : p.vertices.all
            (fun v => v.prev.isSome && v.next.isSome) with
        | false =>
          rw [hall] at h
          have he : (Except.error
              "Invalid polygon: vertices not properly linked"
              : Except String P7St) = .ok s7 := h
          cases he
        | true =>
          rw [hall] at h
          cases hcl : Polygon.clone fresh p with
          | error m =>
            rw [hcl, exceptBind_err] at h
            cases h
          | ok c =>
            rw [hcl, exceptBind_ok] at h
            cases hbe : P7.computeInitialBisectors p c.2 with
            | error m =>
              rw [hbe, exceptBind_err] at h
              cases h
            | ok be =>
              rw [hbe, exceptBind_ok] at h
              cases hq1 : P7.computeInitialEdgeEvents p [] with
              | error m =>
                rw [hq1, exceptBind_err] at h
                cases h
              | ok q1 =>
                rw [hq1, exceptBind_ok] at h
                cases hq2 : P7.computeInitialSplitEvents p q1 with
                | error m =>
                  rw [hq2, exceptBind_err] at h
                  cases h
                | ok q2 =>
                  rw [hq2, exceptBind_ok] at h
                  have he : (Except.ok
                      { queue := q2, wavefrontPolygons := [c.1],
                        angleBisectorEdges := be.1, skeletonEdges := [],
                        debugLog := [], fresh := be.2 }
                      : Except String P7St) = .ok s7 := h
                  injection he with he2
                  refine ⟨c, rfl, ?_, ?_⟩
                  · rw [← he2]
                  · exact (Polygon.clone_IdsGe fresh fresh p c.1 c.2
                      (le_refl fresh) (by rw [hcl])).1

theorem goldN1 : Vec.normalize ⟨7, 24⟩ = .ok ⟨7 / 25, 24 / 25⟩ := by
  rw [Vec.normalize_eval ⟨7, 24⟩ 25 (by norm_num) (by norm_num [Vec.lengthSq])]

theorem goldN2 : Vec.normalize ⟨14, 0⟩ = .ok ⟨1, 0⟩ := by
  rw [Vec.normalize_eval ⟨14, 0⟩ 14 (by norm_num) (by norm_num [Vec.lengthSq])]
  norm_num

theorem goldN3 : Vec.normalize ⟨32 / 25, 24 / 25⟩ = .ok ⟨4 / 5, 3 / 5⟩ := by
  rw [Vec.normalize_eval ⟨32 / 25, 24 / 25⟩ (8 / 5) (by norm_num)
    (by norm_num [Vec.lengthSq])]
  norm_num

theorem goldN4 : Vec.normalize ⟨-14, 0⟩ = .ok ⟨-1, 0⟩ := by
  rw [Vec.normalize_eval ⟨-14, 0⟩ 14 (by norm_num) (by norm_num [Vec.lengthSq])]
  norm_num

theorem goldN5 : Vec.normalize ⟨-7, 24⟩ = .ok ⟨-(7 / 25), 24 / 25⟩ := by
  rw [Vec.normalize_eval ⟨-7, 24⟩ 25 (by norm_num) (by norm_num [Vec.lengthSq])]
  norm_num

theorem goldN6 : Vec.normalize ⟨-(32 / 25), 24 / 25⟩ = .ok ⟨-(4 / 5), 3 / 5⟩ := by
  rw [Vec.normalize_eval ⟨-(32 / 25), 24 / 25⟩ (8 / 5) (by norm_num)
    (by norm_num [Vec.lengthSq])]
  norm_num

theorem goldN7 : Vec.normalize ⟨7, -24⟩ = .ok ⟨7 / 25, -(24 / 25)⟩ := by
  rw [Vec.normalize_eval ⟨7, -24⟩ 25 (by norm_num) (by norm_num [Vec.lengthSq])]
  norm_num

theorem goldN8 : Vec.normalize ⟨-7, -24⟩ = .ok ⟨-(7 / 25), -(24 / 25)⟩ := by
  rw [Vec.normalize_eval ⟨-7, -24⟩ 25 (by norm_num) (by norm_num [Vec.lengthSq])]
  norm_num

theorem goldN9 : Vec.normalize ⟨0, -(48 / 25)⟩ = .ok ⟨0, -1⟩ := by
  rw [Vec.normalize_eval ⟨0, -(48 / 25)⟩ (48 / 25) (by norm_num)
    (by norm_num [Vec.lengthSq])]
  norm_num

theorem goldT_initialize :
    Polygon.initialize 53
      { vertices := [⟨50, ⟨0, 0⟩, none, none, ⟨0, 0⟩⟩,
                     ⟨51, ⟨14, 0⟩, none, none, ⟨0, 0⟩⟩,
                     ⟨52, ⟨7, 24⟩, none, none, ⟨0, 0⟩⟩],
        edges := [] } = ((goldTC, 56), none) := by
  have hR : relink ([⟨50, ⟨0, 0⟩, none, none, ⟨0, 0⟩⟩,
        ⟨51, ⟨14, 0⟩, none, none, ⟨0, 0⟩⟩,
        ⟨52, ⟨7, 24⟩, none, none, ⟨0, 0⟩⟩] : List Vertex)
      = [⟨50, ⟨0, 0⟩, some 52, some 51, ⟨0, 0⟩⟩,
         ⟨51, ⟨14, 0⟩, some 50, some 52, ⟨0, 0⟩⟩,
         ⟨52, ⟨7, 24⟩, some 51, some 50, ⟨0, 0⟩⟩] := rfl
  have f50 : findVert ([⟨50, ⟨0, 0⟩, some 52, some 51, ⟨0, 0⟩⟩,
        ⟨51, ⟨14, 0⟩, some 50, some 52, ⟨0, 0⟩⟩,
        ⟨52, ⟨7, 24⟩, some 51, some 50, ⟨0, 0⟩⟩] : List Vertex) 50
      = some ⟨50, ⟨0, 0⟩, some 52, some 51, ⟨0, 0⟩⟩ := rfl
  have f51 : findVert ([⟨50, ⟨0, 0⟩, some 52, some 51, ⟨0, 0⟩⟩,
        ⟨51, ⟨14, 0⟩, some 50, some 52, ⟨0, 0⟩⟩,
        ⟨52, ⟨7, 24⟩, some 51, some 50, ⟨0, 0⟩⟩] : List Vertex) 51
      = some ⟨51, ⟨14, 0⟩, some 50, some 52, ⟨0, 0⟩⟩ := rfl
  have f52 : findVert ([⟨50, ⟨0, 0⟩, some 52, some 51, ⟨0, 0⟩⟩,
        ⟨51, ⟨14, 0⟩, some 50, some 52, ⟨0, 0⟩⟩,
        ⟨52, ⟨7, 24⟩, some 51, some 50, ⟨0, 0⟩⟩] : List Vertex) 52
      = some ⟨52, ⟨7, 24⟩, some 51, some 50, ⟨0, 0⟩⟩ := rfl
  have hE : mkEdges 53 ([⟨50, ⟨0, 0⟩, some 52, some 51, ⟨0, 0⟩⟩,
        ⟨51, ⟨14, 0⟩, some 50, some 52, ⟨0, 0⟩⟩,
        ⟨52, ⟨7, 24⟩, some 51, some 50, ⟨0, 0⟩⟩] : List Vertex)
      = [⟨53, 50, 51⟩, ⟨54, 51, 52⟩, ⟨55, 52, 50⟩] := rfl
  have hSB : setBisectors
      ([⟨50, ⟨0, 0⟩, some 52, some 51, ⟨0, 0⟩⟩,
        ⟨51, ⟨14, 0⟩, some 50, some 52, ⟨0, 0⟩⟩,
        ⟨52, ⟨7, 24⟩, some 51, some 50, ⟨0, 0⟩⟩] : List Vertex)
      ([⟨50, ⟨0, 0⟩, some 52, some 51, ⟨0, 0⟩⟩,
        ⟨51, ⟨14, 0⟩, some 50, some 52, ⟨0, 0⟩⟩,
        ⟨52, ⟨7, 24⟩, some 51, some 50, ⟨0, 0⟩⟩] : List Vertex)
      = ([⟨50, ⟨0, 0⟩, some 52, some 51, ⟨4 / 5, 3 / 5⟩⟩,
          ⟨51, ⟨14, 0⟩, some 50, some 52, ⟨-(4 / 5), 3 / 5⟩⟩,
          ⟨52, ⟨7, 24⟩, some 51, some 50, ⟨0, -1⟩⟩], none) := by
    norm_num [setBisectors, bisectorFor, f50, f51, f52, Vec.minus, Vec.plus,
      goldN1, goldN2, goldN3, goldN4, goldN5, goldN6, goldN7, goldN8, goldN9]
  unfold Polygon.initialize
  dsimp only
  rw [hR, hE, hSB]
  rfl

theorem Polygon.build_eval (fresh : ℕ) (pts : List Vec) (q : Polygon)
    (f2 : ℕ) (hlen : ¬ pts.length < 3)
    (h : Polygon.initialize (fresh + pts.length)
        { vertices := pts.mapIdx
            (fun i pt => (⟨fresh + i, pt, none, none, ⟨0, 0⟩⟩ : Vertex)),
          edges := [] } = ((q, f2), none)) :
    Polygon.build fresh pts = .ok (q, f2) := by
  unfold Polygon.build
  rw [if_neg hlen]
  dsimp only
  rw [h]

theorem goldT_clone : Polygon.clone 50 goldT = .ok (goldTC, 56) := by
  show Polygon.build 50 (goldT.vertices.map (fun v => v.position.clone)) = _
  rw [show goldT.vertices.map (fun v => v.position.clone)
      = [(⟨0, 0⟩ : Vec), ⟨14, 0⟩, ⟨7, 24⟩] from rfl]
  refine Polygon.build_eval 50 [(⟨0, 0⟩ : Vec), ⟨14, 0⟩, ⟨7, 24⟩] goldTC 56
    (by norm_num) ?_
  rw [show (50 + ([(⟨0, 0⟩ : Vec), ⟨14, 0⟩, ⟨7, 24⟩]).length) = 53 from rfl]
  rw [show ([(⟨0, 0⟩ : Vec), ⟨14, 0⟩, ⟨7, 24⟩]).mapIdx
      (fun i pt => (⟨50 + i, pt, none, none, ⟨0, 0⟩⟩ : Vertex))
      = [⟨50, ⟨0, 0⟩, none, none, ⟨0, 0⟩⟩,
         ⟨51, ⟨14, 0⟩, none, none, ⟨0, 0⟩⟩,
         ⟨52, ⟨7, 24⟩, none, none, ⟨0, 0⟩⟩] from rfl]
  exact goldT_initialize

theorem goldTC_IdsGe : Polygon.IdsGe 10 goldTC := by
  constructor
  · intro v hv
    simp only [goldTC, List.mem_cons, List.not_mem_nil, or_false] at hv
    rcases hv with rfl | rfl | rfl <;> norm_num
  · intro e he
    simp only [goldTC, List.mem_cons, List.not_mem_nil, or_false] at he
    rcases he with rfl | rfl | rfl <;> norm_num

/-- Witness for C10: the golden triangle's clone is computed exactly
(`goldT_clone`), every part of the theorem is applied at it, and an
empty-queue `compute` run keeps the invariant. -/
theorem c10_input_polygon_isolation_witness :
    (Wavefront.make 50 goldT
      = if !goldT.isSimple
        then .error "Initial polygon must be simple (no self-intersections)"
        else (Polygon.clone 50 goldT).map
          (fun cf => ({ polygons := [cf.1], times := [0] }, cf.2)))
    ∧ (Polygon.IdsGe 10 goldTC ∧ (50 : ℕ) ≤ 56)
    ∧ ((∀ q ∈ (⟨⟨[goldTC], [0]⟩, [], [], 60⟩
          : SkeletonSt).wavefront.polygons, Polygon.IdsGe 10 q)
        ∧ (10 : ℕ) ≤ (⟨⟨[goldTC], [0]⟩, [], [], 60⟩ : SkeletonSt).fresh) := by
  refine ⟨c10_input_polygon_isolation.1 50 goldT, ?_, ?_⟩
  · exact c10_input_polygon_isolation.2.1 10 50 goldT goldTC 56
      (by norm_num) goldT_clone
  · exact c10_input_polygon_isolation.2.2.2.1 10 3
      ⟨⟨[goldTC], [0]⟩, [], [], 60⟩ ⟨⟨[goldTC], [0]⟩, [], [], 60⟩
      (fun q hq => by rw [List.mem_singleton.mp hq]; exact goldTC_IdsGe)
      (by norm_num) rfl
